import Mathlib

/-!
# Verification development for `protocol/peer.go`

A shallow embedding of the key-exchange state machine and the authenticated
transport codec of `protocol/peer.go`, followed by theorems about them.

Modelling conventions.

* Byte slices are lists of `Fin 256`; a nil slice is the empty list.
* `uint64` counters are natural numbers, incremented modulo `2 ^ 64`.
* A Go `error` result is `Option Error` (`none` is `nil`); a `(value, error)`
  result is `Except Error value`.
* A run-time panic (slice bounds, nil dereference, the explicit `panic`) is
  the `Outcome.panic` constructor; it carries the handle as the panicking call
  left it.
* The `*Controller` argument is an opaque pass-through and is omitted.
* The libraries `dhkx`, `crypto/aes`, `crypto/cipher` and the two capability
  interfaces are not part of `peer.go`; they are parameters of the embedding.
-/

namespace Noise

abbrev Byte := Fin 256
abbrev Bytes := List Byte

/-- Error values returned by the operations of `peer.go`. The first two are
the `errors.New` values built in `continueKeyExchange`; `external` stands for
an error value handed back by a library or by the transport. -/
inductive Error where
  | signatureVerificationFailed
  | failedPreviously
  | external (msg : String)
deriving DecidableEq, Repr

/-- The type `KeyExchangeState` with its five constants, in declaration order. -/
inductive KeyExchangeState where
  | KeyExchange_Invalid
  | KeyExchange_PassivelyWaitForPublicKey
  | KeyExchange_ActivelyWaitForPublicKey
  | KeyExchange_Failed
  | KeyExchange_Done
deriving DecidableEq, Repr

open KeyExchangeState

/-- The identity capability `IdentityAdapter` as used by `peer.go`:
`SignatureSize()`, `Sign(data)` and `Verify(endpoint, data, sig)`. -/
structure IdentityAdapter where
  SignatureSize : Nat
  Sign : Bytes → Bytes
  Verify : Bytes → Bytes → Bytes → Bool

/-- The transport capability `MessageAdapter` as used by `peer.go`. `sent` is
the list of messages handed to `SendMessage` so far (oldest first); `sendErr`
gives the result of a `SendMessage` call from the earlier messages and the
message handed over. -/
structure MessageAdapter where
  RemoteEndpoint : Bytes
  sendErr : List Bytes → Bytes → Option Error
  sent : List Bytes

/-- One call `adapter.SendMessage(c, msg)`: the message is handed over and the
transport reports its result. -/
def MessageAdapter.SendMessage (a : MessageAdapter) (msg : Bytes) :
    MessageAdapter × Option Error :=
  ({ a with sent := a.sent ++ [msg] }, a.sendErr a.sent msg)

/-- The library functions `peer.go` calls. `G`, `K`, `B`, `A` are the types
`*dhkx.DHGroup`, `*dhkx.DHKey`, `cipher.Block` and `cipher.AEAD`.
`GeneratePrivateKey` takes the bytes it reads from the random source.
`Seal` and `Open` take nonce, data and additional data, in that order. -/
structure Library (G K B A : Type) where
  GetGroup : Int → Except Error G
  GeneratePrivateKey : G → Bytes → Except Error K
  KeyBytes : K → Bytes
  NewPublicKey : Bytes → K
  ComputeKey : G → K → K → Except Error K
  NewCipher : Bytes → Except Error B
  NewGCM : B → Except Error A
  Seal : A → Bytes → Bytes → Bytes → Bytes
  Open : A → Bytes → Bytes → Bytes → Except Error Bytes

/-- The struct `EstablishedPeer`. Nil pointers and the nil interface value are
`none`; `localNonce` and `remoteNonce` are the `uint64` counters. -/
structure EstablishedPeer (G K A : Type) where
  adapter : MessageAdapter
  kxState : KeyExchangeState
  dhGroup : Option G
  dhKeypair : Option K
  aead : Option A
  localNonce : Nat
  remoteNonce : Nat

/-- Result of a method call on a handle: a panic, or a normal return with the
returned value; both carry the handle afterwards. -/
inductive Outcome (σ α : Type) where
  | panic (s : σ)
  | ret (s : σ) (a : α)

/-- The handle after the call. -/
def Outcome.state {σ α : Type} : Outcome σ α → σ
  | .panic s => s
  | .ret s _ => s

/-- The builtin `copy(dst, src)`: the first `min (len dst) (len src)` bytes of
`dst` are overwritten. -/
def copy (dst src : Bytes) : Bytes :=
  src.take dst.length ++ dst.drop src.length

/-- The function `prependSimpleSignature`. -/
def prependSimpleSignature (idAdapter : IdentityAdapter) (data : Bytes) : Bytes :=
  let ret : Bytes := List.replicate (idAdapter.SignatureSize + data.length) 0
  let ret := copy ret (idAdapter.Sign data)
  ret.take idAdapter.SignatureSize ++ copy (ret.drop idAdapter.SignatureSize) data

/-- The low `n` bytes of `v`, least significant first. -/
def littleEndian : Nat → Nat → Bytes
  | 0, _ => []
  | n + 1, v => Fin.ofNat v :: littleEndian n (v / 256)

/-- The call `binary.LittleEndian.PutUint64(b, v)` on a buffer of at least
eight bytes: the first eight bytes become the little-endian encoding of `v`. -/
def PutUint64 (b : Bytes) (v : Nat) : Bytes :=
  littleEndian 8 v ++ b.drop 8

/-- The nonce buffer both codec operations build from a counter:
`make([]byte, 12)` followed by `PutUint64`. -/
def nonceBuffer (counter : Nat) : Bytes :=
  PutUint64 (List.replicate 12 0) counter

/-- The increment `++` on a `uint64`. -/
def incr64 (n : Nat) : Nat := (n + 1) % 2 ^ 64

section Operations

variable {G K B A : Type}

/-- The function `EstablishPeerWithMessageAdapter`. The first component of the
result is the transport after the call; the second is the returned pair
`(peer, err)`. `rand` is what key generation reads from the random source. -/
def EstablishPeerWithMessageAdapter (lib : Library G K B A) (rand : Bytes)
    (idAdapter : IdentityAdapter) (adapter : MessageAdapter) (passive : Bool) :
    MessageAdapter × Except Error (EstablishedPeer G K A) :=
  match lib.GetGroup 0 with
  | .error err => (adapter, .error err)
  | .ok g =>
    match lib.GeneratePrivateKey g rand with
    | .error err => (adapter, .error err)
    | .ok privKey =>
      let peer : EstablishedPeer G K A :=
        { adapter := adapter, kxState := KeyExchange_Invalid, dhGroup := some g,
          dhKeypair := some privKey, aead := none, localNonce := 0, remoteNonce := 0 }
      if passive then
        (adapter, .ok { peer with kxState := KeyExchange_PassivelyWaitForPublicKey })
      else
        let sendResult :=
          adapter.SendMessage (prependSimpleSignature idAdapter (lib.KeyBytes privKey))
        match sendResult.2 with
        | some err => (sendResult.1, .error err)
        | none =>
          (sendResult.1,
            .ok { peer with kxState := KeyExchange_ActivelyWaitForPublicKey,
                            adapter := sendResult.1 })

/-- The body of the first `case` of `continueKeyExchange`, entered in the two
waiting states. -/
def continueWaiting (lib : Library G K B A) (p : EstablishedPeer G K A)
    (idAdapter : IdentityAdapter) (raw : Bytes) :
    Outcome (EstablishedPeer G K A) (Option Error) :=
  if raw.length < idAdapter.SignatureSize then
    .panic p
  else
    let sig := raw.take idAdapter.SignatureSize
    let rawPubKey := raw.drop idAdapter.SignatureSize
    if idAdapter.Verify p.adapter.RemoteEndpoint rawPubKey sig == false then
      .ret p (some .signatureVerificationFailed)
    else
      let peerPubKey := lib.NewPublicKey rawPubKey
      match p.dhGroup, p.dhKeypair with
      | some g, some kp =>
        match lib.ComputeKey g peerPubKey kp with
        | .error err => .ret { p with kxState := KeyExchange_Failed } (some err)
        | .ok sharedKey =>
          let p1 :=
            if p.kxState = KeyExchange_PassivelyWaitForPublicKey then
              { p with adapter :=
                  (p.adapter.SendMessage
                    (prependSimpleSignature idAdapter (lib.KeyBytes kp))).1 }
            else p
          let p2 := { p1 with dhGroup := none, dhKeypair := none }
          match lib.NewCipher (lib.KeyBytes sharedKey) with
          | .error err => .ret { p2 with kxState := KeyExchange_Failed } (some err)
          | .ok aesCipher =>
            match lib.NewGCM aesCipher with
            | .error err => .ret { p2 with kxState := KeyExchange_Failed } (some err)
            | .ok aead => .ret { p2 with aead := some aead, kxState := KeyExchange_Done } none
      | _, _ => .panic p

/-- The method `continueKeyExchange`. -/
def continueKeyExchange (lib : Library G K B A) (p : EstablishedPeer G K A)
    (idAdapter : IdentityAdapter) (raw : Bytes) :
    Outcome (EstablishedPeer G K A) (Option Error) :=
  match p.kxState with
  | KeyExchange_ActivelyWaitForPublicKey => continueWaiting lib p idAdapter raw
  | KeyExchange_PassivelyWaitForPublicKey => continueWaiting lib p idAdapter raw
  | KeyExchange_Failed => .ret p (some .failedPreviously)
  | _ => .panic p

/-- The method `SendMessage`. -/
def SendMessage (lib : Library G K B A) (p : EstablishedPeer G K A) (body : Bytes) :
    Outcome (EstablishedPeer G K A) (Option Error) :=
  let nonce := nonceBuffer p.localNonce
  let p1 := { p with localNonce := incr64 p.localNonce }
  match p1.aead with
  | none => .panic p1
  | some aead =>
    let cipherText := lib.Seal aead nonce body []
    let sendResult := p1.adapter.SendMessage cipherText
    .ret { p1 with adapter := sendResult.1 } sendResult.2

/-- The method `UnwrapMessage`. -/
def UnwrapMessage (lib : Library G K B A) (p : EstablishedPeer G K A) (raw : Bytes) :
    Outcome (EstablishedPeer G K A) (Except Error Bytes) :=
  let nonce := nonceBuffer p.remoteNonce
  let p1 := { p with remoteNonce := incr64 p.remoteNonce }
  match p1.aead with
  | none => .panic p1
  | some aead => .ret p1 (lib.Open aead nonce raw [])

end Operations

/-- The value of a byte string read least significant byte first. -/
def leValue : Bytes → Nat
  | [] => 0
  | b :: bs => b.val + 256 * leValue bs

/-! ## Runs of calls and reachable handles -/

section Runs

variable {G K B A : Type}

/-- Consecutive `SendMessage` calls on one handle, one per payload of the
list; the handle after the last call. -/
def sendAll (lib : Library G K B A) (p : EstablishedPeer G K A) :
    List Bytes → EstablishedPeer G K A
  | [] => p
  | m :: ms => sendAll lib (SendMessage lib p m).state ms

/-- The nonce buffers built by consecutive `SendMessage` calls on one handle,
in call order. -/
def sealNonces (lib : Library G K B A) (p : EstablishedPeer G K A) :
    List Bytes → List Bytes
  | [] => []
  | m :: ms => nonceBuffer p.localNonce :: sealNonces lib (SendMessage lib p m).state ms

/-- The counter values read by consecutive `SendMessage` calls on one handle,
in call order. -/
def sendCounters (lib : Library G K B A) (p : EstablishedPeer G K A) :
    List Bytes → List Nat
  | [] => []
  | m :: ms => p.localNonce :: sendCounters lib (SendMessage lib p m).state ms

/-- Consecutive `continueKeyExchange` calls on one handle, each with its own
identity adapter and raw message; the handle after the last call. -/
def continueAll (lib : Library G K B A) (p : EstablishedPeer G K A) :
    List (IdentityAdapter × Bytes) → EstablishedPeer G K A
  | [] => p
  | c :: cs => continueAll lib (continueKeyExchange lib p c.1 c.2).state cs

/-- Handles reachable from `EstablishPeerWithMessageAdapter` by calls of
`continueKeyExchange`, `SendMessage` and `UnwrapMessage`, panicking calls
included. -/
inductive Reachable (lib : Library G K B A) : EstablishedPeer G K A → Prop where
  | establish (rand : Bytes) (idAdapter : IdentityAdapter) (adapter : MessageAdapter)
      (passive : Bool) (p : EstablishedPeer G K A) :
      (EstablishPeerWithMessageAdapter lib rand idAdapter adapter passive).2 = .ok p →
      Reachable lib p
  | continueKx (p : EstablishedPeer G K A) (idAdapter : IdentityAdapter) (raw : Bytes) :
      Reachable lib p → Reachable lib (continueKeyExchange lib p idAdapter raw).state
  | send (p : EstablishedPeer G K A) (body : Bytes) :
      Reachable lib p → Reachable lib (SendMessage lib p body).state
  | unwrap (p : EstablishedPeer G K A) (raw : Bytes) :
      Reachable lib p → Reachable lib (UnwrapMessage lib p raw).state

/-- The condition on a handle that state `Done` comes with a discarded
ephemeral group and keypair and an installed AEAD context. -/
def DoneInvariant (p : EstablishedPeer G K A) : Prop :=
  p.kxState = KeyExchange_Done →
    p.dhGroup = none ∧ p.dhKeypair = none ∧ ∃ a, p.aead = some a

end Runs

/-! ## A sample instance of the parameters

A small Diffie-Hellman group, a key-size-checking block cipher constructor and
a tagging AEAD, used to evaluate the operations on concrete inputs. -/

/-- Big-endian value of a byte string. -/
def bytesToNat (b : Bytes) : Nat :=
  b.foldl (fun acc x => acc * 256 + x.val) 0

/-- Big-endian encoding of `v` on exactly `width` bytes. -/
def bigEndian (width v : Nat) : Bytes :=
  (littleEndian width v).reverse

/-- A group of the sample library: modulus, generator and byte width. -/
structure SampleGroup where
  p : Nat
  g : Nat
  width : Nat
deriving DecidableEq, Repr

/-- A key of the sample library: private exponent `x` (zero when only the
public part is known), public value `y`, and the byte width of its encoding. -/
structure SampleKey where
  x : Nat
  y : Nat
  width : Nat
deriving DecidableEq, Repr

/-- The sample library over the group of modulus `2 ^ e - 1` and generator 2.
Keys are encoded on the byte width of the modulus, the block cipher accepts
keys of 16, 24 or 32 bytes, and the AEAD tags a message with nonce and key. -/
def sampleLibrary (e : Nat) : Library SampleGroup SampleKey Bytes Bytes where
  GetGroup := fun _ => .ok { p := 2 ^ e - 1, g := 2, width := (e + 7) / 8 }
  GeneratePrivateKey := fun grp rand =>
    let x := bytesToNat rand % grp.p
    if x = 0 then .error (.external "random source failed")
    else .ok { x := x, y := grp.g ^ x % grp.p, width := grp.width }
  KeyBytes := fun k => bigEndian k.width k.y
  NewPublicKey := fun b => { x := 0, y := bytesToNat b, width := b.length }
  ComputeKey := fun grp pub priv =>
    if pub.y = 0 ∨ grp.p ≤ pub.y then .error (.external "DH parameter out of bounds")
    else .ok { x := 0, y := pub.y ^ priv.x % grp.p, width := grp.width }
  NewCipher := fun key =>
    if key.length = 16 ∨ key.length = 24 ∨ key.length = 32 then .ok key
    else .error (.external "crypto/aes: invalid key size")
  NewGCM := fun blk => .ok blk
  Seal := fun key nonce body _ => nonce ++ key ++ body
  Open := fun key nonce raw _ =>
    if raw.take (nonce.length + key.length) = nonce ++ key then
      .ok (raw.drop (nonce.length + key.length))
    else .error (.external "cipher: message authentication failed")

/-- A sample identity adapter: a two-byte signature made of the signer's token
and the length of the data; the endpoint token of a signer is its token. -/
def sampleIdentity (token : Byte) : IdentityAdapter where
  SignatureSize := 2
  Sign := fun data => [token, Fin.ofNat data.length]
  Verify := fun endpoint data sig =>
    decide (sig = endpoint ++ [Fin.ofNat data.length])

/-- A sample transport towards the endpoint `remote`, with nothing sent yet;
every send fails when `failing` is set. -/
def sampleTransport (remote : Byte) (failing : Bool) : MessageAdapter where
  RemoteEndpoint := [remote]
  sendErr := fun _ _ => if failing then some (.external "send failed") else none
  sent := []

/-- A handle in state `Done` over the sample library, holding the key `key`
and the given counters. -/
def sampleDone (key : Bytes) (localNonce remoteNonce : Nat) (failing : Bool) :
    EstablishedPeer SampleGroup SampleKey Bytes where
  adapter := sampleTransport 7 failing
  kxState := KeyExchange_Done
  dhGroup := none
  dhKeypair := none
  aead := some key
  localNonce := localNonce
  remoteNonce := remoteNonce

/-- A handle in a waiting state over the sample library of exponent `e`, with
private exponent `x`, talking to the endpoint `remote`. -/
def sampleWaiting (e x : Nat) (remote : Byte) (passive failing : Bool) :
    EstablishedPeer SampleGroup SampleKey Bytes where
  adapter := sampleTransport remote failing
  kxState :=
    if passive then KeyExchange_PassivelyWaitForPublicKey
    else KeyExchange_ActivelyWaitForPublicKey
  dhGroup := some { p := 2 ^ e - 1, g := 2, width := (e + 7) / 8 }
  dhKeypair := some { x := x, y := 2 ^ x % (2 ^ e - 1), width := (e + 7) / 8 }
  aead := none
  localNonce := 0
  remoteNonce := 0

/-- The handshake message of the sample initiator with token 1 and private
exponent 10, in the sample library of exponent `e`. -/
def sampleHello (e : Nat) : Bytes :=
  prependSimpleSignature (sampleIdentity 1)
    ((sampleLibrary e).KeyBytes { x := 10, y := 2 ^ 10 % (2 ^ e - 1), width := (e + 7) / 8 })

/-- The sample responder (token 2, private exponent 12) after it has processed
the sample initiator's handshake message. -/
def sampleResponderDone : EstablishedPeer SampleGroup SampleKey Bytes :=
  (continueKeyExchange (sampleLibrary 127) (sampleWaiting 127 12 1 true false)
    (sampleIdentity 2) (sampleHello 127)).state

/-- A handle in state `Failed` over the sample library. -/
def sampleFailed : EstablishedPeer SampleGroup SampleKey Bytes where
  adapter := sampleTransport 1 false
  kxState := KeyExchange_Failed
  dhGroup := none
  dhKeypair := none
  aead := none
  localNonce := 0
  remoteNonce := 0

/-- The condition on a handle that its state is not `Invalid` and that it
holds an AEAD context exactly when its state is `Done`. -/
def CipherInvariant {G K A : Type} (p : EstablishedPeer G K A) : Prop :=
  p.kxState ≠ KeyExchange_Invalid ∧ ((∃ a, p.aead = some a) ↔ p.kxState = KeyExchange_Done)

/-- The condition on a handle that in the two waiting states the ephemeral
group and keypair are present. -/
def KeysWhileWaiting {G K A : Type} (p : EstablishedPeer G K A) : Prop :=
  (p.kxState = KeyExchange_ActivelyWaitForPublicKey ∨
    p.kxState = KeyExchange_PassivelyWaitForPublicKey) →
  (∃ g, p.dhGroup = some g) ∧ ∃ kp, p.dhKeypair = some kp

/-- The 2048-bit MODP group of RFC 3526 (group 14, generator 2), which is the
group `dhkx.GetGroup(0)` returns; its values are encoded on 256 bytes. -/
def modp2048 : SampleGroup where
  p := 0xFFFFFFFFFFFFFFFFC90FDAA22168C234C4C6628B80DC1CD129024E088A67CC74020BBEA63B139B22514A08798E3404DDEF9519B3CD3A431B302B0A6DF25F14374FE1356D6D51C245E485B576625E7EC6F44C42E9A637ED6B0BFF5CB6F406B7EDEE386BFB5A899FA5AE9F24117C4B1FE649286651ECE45B3DC2007CB8A163BF0598DA48361C55D39A69163FA8FD24CF5F83655D23DCA3AD961C62F356208552BB9ED529077096966D670C354E4ABC9804F1746C08CA18217C32905E462E36CE3BE39E772C180E86039B2783A2EC07A28FB5C55DF06F4C52C9DE2BCBF6955817183995497CEA956AE515D2261898FA051015728E5A8AACAA68FFFFFFFFFFFFFFFF
  g := 2
  width := 256

/-- The sample library with the group selection of `dhkx.GetGroup(0)`: every
group id gives `modp2048`; key generation, key agreement, block cipher and
AEAD are those of `sampleLibrary`. -/
def modp2048Library : Library SampleGroup SampleKey Bytes Bytes :=
  { sampleLibrary 127 with GetGroup := fun _ => .ok modp2048 }

/-! ## Theorems -/

section Theorems

variable {G K B A : Type}

/-! ### Auxiliary facts -/

theorem littleEndian_length (n v : Nat) : (littleEndian n v).length = n := by
  induction n generalizing v with
  | zero => rfl
  | succ n ih => simp [littleEndian, ih]

theorem leValue_littleEndian (n v : Nat) : leValue (littleEndian n v) = v % 256 ^ n := by
  induction n generalizing v with
  | zero => simp [littleEndian, leValue, Nat.mod_one]
  | succ n ih =>
    rw [littleEndian, leValue, ih, pow_succ, mul_comm (256 ^ n) 256, Nat.mod_mul]
    rfl

theorem nonceBuffer_inj (a b : Nat) (ha : a < 2 ^ 64) (hb : b < 2 ^ 64)
    (h : nonceBuffer a = nonceBuffer b) : a = b := by
  unfold nonceBuffer PutUint64 at h
  have h8 : littleEndian 8 a = littleEndian 8 b :=
    List.append_inj_left h (by rw [littleEndian_length, littleEndian_length])
  have hv := congrArg leValue h8
  rw [leValue_littleEndian, leValue_littleEndian] at hv
  have e : (256 : Nat) ^ 8 = 2 ^ 64 := by norm_num
  rw [e, Nat.mod_eq_of_lt ha, Nat.mod_eq_of_lt hb] at hv
  exact hv

theorem incr64_lt (n : Nat) : incr64 n < 2 ^ 64 := Nat.mod_lt _ (by norm_num)

theorem SendMessage_state_localNonce (lib : Library G K B A) (p : EstablishedPeer G K A)
    (body : Bytes) : (SendMessage lib p body).state.localNonce = incr64 p.localNonce := by
  unfold SendMessage
  cases h : p.aead <;> simp [h, Outcome.state]

theorem SendMessage_state_aead (lib : Library G K B A) (p : EstablishedPeer G K A)
    (body : Bytes) : (SendMessage lib p body).state.aead = p.aead := by
  unfold SendMessage
  cases h : p.aead <;> simp [h, Outcome.state]

theorem SendMessage_state_sent (lib : Library G K B A) (p : EstablishedPeer G K A)
    (a : A) (body : Bytes) (h : p.aead = some a) :
    (SendMessage lib p body).state.adapter.sent =
      p.adapter.sent ++ [lib.Seal a (nonceBuffer p.localNonce) body []] := by
  simp [SendMessage, h, Outcome.state, MessageAdapter.SendMessage]

theorem sendCounters_eq (lib : Library G K B A) (msgs : List Bytes) :
    ∀ p : EstablishedPeer G K A, p.localNonce < 2 ^ 64 →
      sendCounters lib p msgs =
        (List.range msgs.length).map (fun i => (p.localNonce + i) % 2 ^ 64) := by
  induction msgs with
  | nil => intro p _; rfl
  | cons m ms ih =>
    intro p hp
    rw [sendCounters, ih _ (by rw [SendMessage_state_localNonce]; exact incr64_lt _),
      SendMessage_state_localNonce, List.length_cons, List.range_succ_eq_map, List.map_cons,
      List.map_map]
    congr 1
    · show p.localNonce = (p.localNonce + 0) % 2 ^ 64
      omega
    · apply List.map_congr_left
      intro i _
      simp only [incr64, Function.comp, Nat.succ_eq_add_one]
      omega

theorem sealNonces_eq_map (lib : Library G K B A) (msgs : List Bytes) :
    ∀ p : EstablishedPeer G K A,
      sealNonces lib p msgs = (sendCounters lib p msgs).map nonceBuffer := by
  induction msgs with
  | nil => intro p; rfl
  | cons m ms ih => intro p; simp [sealNonces, sendCounters, ih]

theorem sealNonces_length (lib : Library G K B A) (msgs : List Bytes) :
    ∀ p : EstablishedPeer G K A, (sealNonces lib p msgs).length = msgs.length := by
  induction msgs with
  | nil => intro p; rfl
  | cons m ms ih => intro p; simp [sealNonces, ih]

theorem sendAll_aead (lib : Library G K B A) (msgs : List Bytes) :
    ∀ p : EstablishedPeer G K A, (sendAll lib p msgs).aead = p.aead := by
  induction msgs with
  | nil => intro p; rfl
  | cons m ms ih => intro p; rw [sendAll, ih, SendMessage_state_aead]

theorem sendAll_sent (lib : Library G K B A) (a : A) (msgs : List Bytes) :
    ∀ p : EstablishedPeer G K A, p.aead = some a →
      (sendAll lib p msgs).adapter.sent =
        p.adapter.sent ++
          List.zipWith (fun nonce body => lib.Seal a nonce body [])
            (sealNonces lib p msgs) msgs := by
  induction msgs with
  | nil => intro p _; simp [sendAll, sealNonces]
  | cons m ms ih =>
    intro p hp
    rw [sendAll, ih _ (by rw [SendMessage_state_aead]; exact hp),
      SendMessage_state_sent lib p a m hp, sealNonces, List.zipWith_cons_cons,
      List.append_assoc, List.singleton_append]

/-- After `2 ^ 64` sends from counter 0 the counter has wrapped: the call of
index `2 ^ 64` builds the nonce of the call of index 0. -/
theorem sealNonces_wrap (lib : Library G K B A) (p : EstablishedPeer G K A)
    (msgs : List Bytes) (h0 : p.localNonce = 0) (hN : 2 ^ 64 < msgs.length) :
    (sealNonces lib p msgs)[2 ^ 64]? = (sealNonces lib p msgs)[0]? := by
  have hpos : 0 < msgs.length := by omega
  rw [sealNonces_eq_map, sendCounters_eq lib msgs p (by rw [h0]; norm_num), h0]
  simp only [List.getElem?_map, List.getElem?_range hN, List.getElem?_range hpos,
    Option.map_some', Nat.zero_add, Nat.mod_self, Nat.zero_mod]

theorem prependSimpleSignature_eq (idAdapter : IdentityAdapter) (data : Bytes)
    (h : (idAdapter.Sign data).length = idAdapter.SignatureSize) :
    prependSimpleSignature idAdapter data = idAdapter.Sign data ++ data := by
  simp only [prependSimpleSignature, copy, ← h]
  simp

theorem continueKeyExchange_of_waiting (lib : Library G K B A) (p : EstablishedPeer G K A)
    (idAdapter : IdentityAdapter) (raw : Bytes)
    (hState : p.kxState = KeyExchange_ActivelyWaitForPublicKey ∨
      p.kxState = KeyExchange_PassivelyWaitForPublicKey) :
    continueKeyExchange lib p idAdapter raw = continueWaiting lib p idAdapter raw := by
  rcases hState with h | h <;> simp [continueKeyExchange, h]

/-- Evaluation of a `continueKeyExchange` call in which every step succeeds. -/
theorem continueKeyExchange_done (lib : Library G K B A) (p : EstablishedPeer G K A)
    (idAdapter : IdentityAdapter) (raw : Bytes) (g : G) (kp s : K) (blk : B) (aead : A)
    (hState : p.kxState = KeyExchange_ActivelyWaitForPublicKey ∨
      p.kxState = KeyExchange_PassivelyWaitForPublicKey)
    (hLen : idAdapter.SignatureSize ≤ raw.length)
    (hVer : idAdapter.Verify p.adapter.RemoteEndpoint (raw.drop idAdapter.SignatureSize)
      (raw.take idAdapter.SignatureSize) = true)
    (hg : p.dhGroup = some g) (hk : p.dhKeypair = some kp)
    (hDH : lib.ComputeKey g (lib.NewPublicKey (raw.drop idAdapter.SignatureSize)) kp = .ok s)
    (hCipher : lib.NewCipher (lib.KeyBytes s) = .ok blk)
    (hGCM : lib.NewGCM blk = .ok aead) :
    continueKeyExchange lib p idAdapter raw =
      .ret { p with
              adapter :=
                if p.kxState = KeyExchange_PassivelyWaitForPublicKey then
                  (p.adapter.SendMessage
                    (prependSimpleSignature idAdapter (lib.KeyBytes kp))).1
                else p.adapter,
              dhGroup := none, dhKeypair := none, aead := some aead,
              kxState := KeyExchange_Done } none := by
  rw [continueKeyExchange_of_waiting lib p idAdapter raw hState]
  simp only [continueWaiting, Nat.not_lt.mpr hLen, if_false, hVer, hg, hk, hDH, hCipher, hGCM]
  by_cases hp : p.kxState = KeyExchange_PassivelyWaitForPublicKey <;> simp [hp]

theorem establish_kxState (lib : Library G K B A) (rand : Bytes)
    (idAdapter : IdentityAdapter) (adapter : MessageAdapter) (passive : Bool)
    (p : EstablishedPeer G K A)
    (h : (EstablishPeerWithMessageAdapter lib rand idAdapter adapter passive).2 = .ok p) :
    p.kxState = KeyExchange_ActivelyWaitForPublicKey ∨
      p.kxState = KeyExchange_PassivelyWaitForPublicKey := by
  unfold EstablishPeerWithMessageAdapter at h
  cases hG : lib.GetGroup 0 with
  | error e => simp [hG] at h
  | ok g =>
    cases hK : lib.GeneratePrivateKey g rand with
    | error e => simp [hG, hK] at h
    | ok k =>
      cases passive with
      | true =>
        simp [hG, hK] at h
        rw [← h]; exact Or.inr rfl
      | false =>
        cases hS : (adapter.SendMessage
            (prependSimpleSignature idAdapter (lib.KeyBytes k))).2 with
        | some e => simp [hG, hK, hS] at h
        | none =>
          simp [hG, hK, hS] at h
          rw [← h]; exact Or.inl rfl

/-- The handle after a `continueKeyExchange` call is the handle before, or the
handle before with state `Failed` (ephemeral key material possibly discarded,
transport possibly advanced), or a handle in `Done` with the ephemeral key
material discarded and an AEAD context installed. -/
theorem continueKeyExchange_state_cases (lib : Library G K B A)
    (p : EstablishedPeer G K A) (idAdapter : IdentityAdapter) (raw : Bytes) :
    (continueKeyExchange lib p idAdapter raw).state = p ∨
    (continueKeyExchange lib p idAdapter raw).state =
      { p with kxState := KeyExchange_Failed } ∨
    (∃ ad, (continueKeyExchange lib p idAdapter raw).state =
      { p with adapter := ad, dhGroup := none, dhKeypair := none,
               kxState := KeyExchange_Failed }) ∨
    (∃ ad a, (continueKeyExchange lib p idAdapter raw).state =
      { p with adapter := ad, dhGroup := none, dhKeypair := none, aead := some a,
               kxState := KeyExchange_Done }) := by
  by_cases hW : p.kxState = KeyExchange_ActivelyWaitForPublicKey ∨
      p.kxState = KeyExchange_PassivelyWaitForPublicKey
  · rw [continueKeyExchange_of_waiting lib p idAdapter raw hW]
    unfold continueWaiting
    by_cases hLen : raw.length < idAdapter.SignatureSize
    · left; simp [hLen, Outcome.state]
    · cases hVer : idAdapter.Verify p.adapter.RemoteEndpoint
          (raw.drop idAdapter.SignatureSize) (raw.take idAdapter.SignatureSize) with
      | false => left; simp [hLen, hVer, Outcome.state]
      | true =>
        cases hg : p.dhGroup with
        | none => left; simp [hLen, hVer, hg, Outcome.state]
        | some g =>
          cases hk : p.dhKeypair with
          | none => left; simp [hLen, hVer, hg, hk, Outcome.state]
          | some kp =>
            cases hDH : lib.ComputeKey g
                (lib.NewPublicKey (raw.drop idAdapter.SignatureSize)) kp with
            | error e => right; left; simp [hLen, hVer, hg, hk, hDH, Outcome.state]
            | ok s =>
              cases hC : lib.NewCipher (lib.KeyBytes s) with
              | error e =>
                right; right; left
                by_cases hP : p.kxState = KeyExchange_PassivelyWaitForPublicKey <;>
                  simp [hLen, hVer, hg, hk, hDH, hC, hP, Outcome.state]
              | ok blk =>
                cases hGCM : lib.NewGCM blk with
                | error e =>
                  right; right; left
                  by_cases hP : p.kxState = KeyExchange_PassivelyWaitForPublicKey <;>
                    simp [hLen, hVer, hg, hk, hDH, hC, hGCM, hP, Outcome.state]
                | ok a =>
                  right; right; right
                  by_cases hP : p.kxState = KeyExchange_PassivelyWaitForPublicKey <;>
                    simp [hLen, hVer, hg, hk, hDH, hC, hGCM, hP, Outcome.state]
  · left
    unfold continueKeyExchange
    cases hs : p.kxState with
    | KeyExchange_ActivelyWaitForPublicKey => exact absurd (Or.inl hs) hW
    | KeyExchange_PassivelyWaitForPublicKey => exact absurd (Or.inr hs) hW
    | KeyExchange_Invalid => rfl
    | KeyExchange_Failed => rfl
    | KeyExchange_Done => rfl

theorem continueKeyExchange_doneInvariant (lib : Library G K B A)
    (p : EstablishedPeer G K A) (idAdapter : IdentityAdapter) (raw : Bytes)
    (h : DoneInvariant p) :
    DoneInvariant (continueKeyExchange lib p idAdapter raw).state := by
  rcases continueKeyExchange_state_cases lib p idAdapter raw with
    h1 | h1 | ⟨ad, h1⟩ | ⟨ad, a, h1⟩ <;> rw [h1]
  · exact h
  · intro hd; cases hd
  · intro hd; cases hd
  · intro _; exact ⟨rfl, rfl, a, rfl⟩

theorem SendMessage_doneInvariant (lib : Library G K B A)
    (p : EstablishedPeer G K A) (body : Bytes) (h : DoneInvariant p) :
    DoneInvariant (SendMessage lib p body).state := by
  unfold SendMessage
  cases ha : p.aead <;> simpa [DoneInvariant, Outcome.state, ha] using h

theorem UnwrapMessage_doneInvariant (lib : Library G K B A)
    (p : EstablishedPeer G K A) (raw : Bytes) (h : DoneInvariant p) :
    DoneInvariant (UnwrapMessage lib p raw).state := by
  unfold UnwrapMessage
  cases ha : p.aead <;> simpa [DoneInvariant, Outcome.state, ha] using h

theorem reachable_doneInvariant (lib : Library G K B A) (p : EstablishedPeer G K A)
    (h : Reachable lib p) : DoneInvariant p := by
  induction h with
  | establish rand idAdapter adapter passive p hp =>
    intro hd
    rcases establish_kxState lib rand idAdapter adapter passive p hp with hs | hs <;>
      rw [hs] at hd <;> cases hd
  | continueKx p idAdapter raw _ ih => exact continueKeyExchange_doneInvariant lib p idAdapter raw ih
  | send p body _ ih => exact SendMessage_doneInvariant lib p body ih
  | unwrap p raw _ ih => exact UnwrapMessage_doneInvariant lib p raw ih

/-- The sample responder in `Done` is reachable: a passive establish followed
by one `continueKeyExchange` call. -/
theorem sampleResponderDone_reachable :
    Reachable (sampleLibrary 127) sampleResponderDone :=
  Reachable.continueKx _ _ _
    (Reachable.establish [12] (sampleIdentity 2) (sampleTransport 1 false) true
      (sampleWaiting 127 12 1 true false) rfl)

/-- A handle returned by `EstablishPeerWithMessageAdapter` is in a waiting
state, holds the group and a keypair, has no AEAD context and has both
counters at zero. -/
theorem establish_ok_shape (lib : Library G K B A) (rand : Bytes)
    (idAdapter : IdentityAdapter) (adapter : MessageAdapter) (passive : Bool)
    (p : EstablishedPeer G K A)
    (h : (EstablishPeerWithMessageAdapter lib rand idAdapter adapter passive).2 = .ok p) :
    (p.kxState = KeyExchange_ActivelyWaitForPublicKey ∨
      p.kxState = KeyExchange_PassivelyWaitForPublicKey) ∧
    (∃ g, p.dhGroup = some g) ∧ (∃ kp, p.dhKeypair = some kp) ∧
    p.aead = none ∧ p.localNonce = 0 ∧ p.remoteNonce = 0 := by
  unfold EstablishPeerWithMessageAdapter at h
  cases hG : lib.GetGroup 0 with
  | error e => simp [hG] at h
  | ok g =>
    cases hK : lib.GeneratePrivateKey g rand with
    | error e => simp [hG, hK] at h
    | ok k =>
      cases passive with
      | true =>
        simp [hG, hK] at h
        rw [← h]; exact ⟨Or.inr rfl, ⟨g, rfl⟩, ⟨k, rfl⟩, rfl, rfl, rfl⟩
      | false =>
        cases hS : (adapter.SendMessage
            (prependSimpleSignature idAdapter (lib.KeyBytes k))).2 with
        | some e => simp [hG, hK, hS] at h
        | none =>
          simp [hG, hK, hS] at h
          rw [← h]; exact ⟨Or.inl rfl, ⟨g, rfl⟩, ⟨k, rfl⟩, rfl, rfl, rfl⟩

theorem continueKeyExchange_counters (lib : Library G K B A)
    (p : EstablishedPeer G K A) (idAdapter : IdentityAdapter) (raw : Bytes) :
    (continueKeyExchange lib p idAdapter raw).state.localNonce = p.localNonce ∧
    (continueKeyExchange lib p idAdapter raw).state.remoteNonce = p.remoteNonce := by
  rcases continueKeyExchange_state_cases lib p idAdapter raw with
    h1 | h1 | ⟨ad, h1⟩ | ⟨ad, a, h1⟩ <;> rw [h1] <;> exact ⟨rfl, rfl⟩

theorem continueAll_counters (lib : Library G K B A)
    (calls : List (IdentityAdapter × Bytes)) :
    ∀ p : EstablishedPeer G K A,
      (continueAll lib p calls).localNonce = p.localNonce ∧
      (continueAll lib p calls).remoteNonce = p.remoteNonce := by
  induction calls with
  | nil => intro p; exact ⟨rfl, rfl⟩
  | cons c cs ih =>
    intro p
    rw [continueAll]
    have h1 := ih (continueKeyExchange lib p c.1 c.2).state
    have h2 := continueKeyExchange_counters lib p c.1 c.2
    exact ⟨h1.1.trans h2.1, h1.2.trans h2.2⟩

/-- Whenever `continueKeyExchange` returns, the returned error is nil exactly
when the handle is left in `Done`. -/
theorem continueKeyExchange_nil_iff_done (lib : Library G K B A)
    (p : EstablishedPeer G K A) (idAdapter : IdentityAdapter) (raw : Bytes)
    (p1 : EstablishedPeer G K A) (r : Option Error)
    (hret : continueKeyExchange lib p idAdapter raw = .ret p1 r) :
    r = none ↔ p1.kxState = KeyExchange_Done := by
  by_cases hW : p.kxState = KeyExchange_ActivelyWaitForPublicKey ∨
      p.kxState = KeyExchange_PassivelyWaitForPublicKey
  · rw [continueKeyExchange_of_waiting lib p idAdapter raw hW] at hret
    unfold continueWaiting at hret
    by_cases hLen : raw.length < idAdapter.SignatureSize
    · simp [hLen] at hret
    · cases hVer : idAdapter.Verify p.adapter.RemoteEndpoint
          (raw.drop idAdapter.SignatureSize) (raw.take idAdapter.SignatureSize) with
      | false =>
        simp [hLen, hVer] at hret
        obtain ⟨h1, h2⟩ := hret
        subst h1 h2
        rcases hW with hs | hs <;> simp [hs]
      | true =>
        cases hg : p.dhGroup with
        | none => simp [hLen, hVer, hg] at hret
        | some g =>
          cases hk : p.dhKeypair with
          | none => simp [hLen, hVer, hg, hk] at hret
          | some kp =>
            cases hDH : lib.ComputeKey g
                (lib.NewPublicKey (raw.drop idAdapter.SignatureSize)) kp with
            | error e =>
              simp [hLen, hVer, hg, hk, hDH] at hret
              obtain ⟨h1, h2⟩ := hret
              subst h1 h2
              simp
            | ok s =>
              cases hC : lib.NewCipher (lib.KeyBytes s) with
              | error e =>
                simp [hLen, hVer, hg, hk, hDH, hC] at hret
                obtain ⟨h1, h2⟩ := hret
                subst h1 h2
                simp
              | ok blk =>
                cases hGCM : lib.NewGCM blk with
                | error e =>
                  simp [hLen, hVer, hg, hk, hDH, hC, hGCM] at hret
                  obtain ⟨h1, h2⟩ := hret
                  subst h1 h2
                  simp
                | ok a =>
                  simp [hLen, hVer, hg, hk, hDH, hC, hGCM] at hret
                  obtain ⟨h1, h2⟩ := hret
                  subst h1 h2
                  simp
  · unfold continueKeyExchange at hret
    cases hs : p.kxState with
    | KeyExchange_ActivelyWaitForPublicKey => exact absurd (Or.inl hs) hW
    | KeyExchange_PassivelyWaitForPublicKey => exact absurd (Or.inr hs) hW
    | KeyExchange_Invalid => simp [hs] at hret
    | KeyExchange_Done => simp [hs] at hret
    | KeyExchange_Failed =>
      simp [hs] at hret
      obtain ⟨h1, h2⟩ := hret
      subst h1 h2
      simp [hs]

theorem littleEndian_getElem? (n : Nat) :
    ∀ (v i : Nat), i < n → (littleEndian n v)[i]? = some (Fin.ofNat (v / 256 ^ i)) := by
  induction n with
  | zero => intro v i h; omega
  | succ n ih =>
    intro v i h
    cases i with
    | zero => simp [littleEndian]
    | succ i =>
      rw [littleEndian, List.getElem?_cons_succ, ih (v / 256) i (by omega),
        Nat.div_div_eq_div_mul, pow_succ']

theorem nonceBuffer_eq (c : Nat) :
    nonceBuffer c = littleEndian 8 c ++ List.replicate 4 0 := by
  simp [nonceBuffer, PutUint64]

theorem nonceBuffer_length (c : Nat) : (nonceBuffer c).length = 12 := by
  rw [nonceBuffer_eq, List.length_append, littleEndian_length, List.length_replicate]

/-- The sample AEAD binds a ciphertext to its nonce: opening under another
12-byte nonce than the 12-byte nonce used to seal fails. -/
theorem sampleLibrary_open_other_nonce (e : Nat) (key n n1 m : Bytes)
    (hn : n.length = 12) (hn1 : n1.length = 12) (hne : n ≠ n1) :
    ∃ err, (sampleLibrary e).Open key n1 ((sampleLibrary e).Seal key n m []) [] =
      .error err := by
  have ht : (n ++ key ++ m).take (n1.length + key.length) = n ++ key := by
    rw [hn1, ← hn, ← List.length_append]
    exact List.take_left' rfl
  have hneq : ¬ (n ++ key = n1 ++ key) := fun h => hne (List.append_cancel_right h)
  refine ⟨.external "cipher: message authentication failed", ?_⟩
  simp only [sampleLibrary, ht, hneq, if_false]

theorem nonceBuffer_zero_ne_one : nonceBuffer 0 ≠ nonceBuffer 1 := by decide

/-- The cases of `continueKeyExchange_state_cases`, with the fact that the
handle changes only when the call starts in a waiting state. -/
theorem continueKeyExchange_state_cases_waiting (lib : Library G K B A)
    (p : EstablishedPeer G K A) (idAdapter : IdentityAdapter) (raw : Bytes) :
    (continueKeyExchange lib p idAdapter raw).state = p ∨
    ((p.kxState = KeyExchange_ActivelyWaitForPublicKey ∨
        p.kxState = KeyExchange_PassivelyWaitForPublicKey) ∧
      ((continueKeyExchange lib p idAdapter raw).state =
          { p with kxState := KeyExchange_Failed } ∨
        (∃ ad, (continueKeyExchange lib p idAdapter raw).state =
          { p with adapter := ad, dhGroup := none, dhKeypair := none,
                   kxState := KeyExchange_Failed }) ∨
        (∃ ad a, (continueKeyExchange lib p idAdapter raw).state =
          { p with adapter := ad, dhGroup := none, dhKeypair := none, aead := some a,
                   kxState := KeyExchange_Done }))) := by
  by_cases hW : p.kxState = KeyExchange_ActivelyWaitForPublicKey ∨
      p.kxState = KeyExchange_PassivelyWaitForPublicKey
  · rcases continueKeyExchange_state_cases lib p idAdapter raw with h1 | h1 | h1 | h1
    · exact Or.inl h1
    · exact Or.inr ⟨hW, Or.inl h1⟩
    · exact Or.inr ⟨hW, Or.inr (Or.inl h1)⟩
    · exact Or.inr ⟨hW, Or.inr (Or.inr h1)⟩
  · left
    unfold continueKeyExchange
    cases hs : p.kxState with
    | KeyExchange_ActivelyWaitForPublicKey => exact absurd (Or.inl hs) hW
    | KeyExchange_PassivelyWaitForPublicKey => exact absurd (Or.inr hs) hW
    | KeyExchange_Invalid => rfl
    | KeyExchange_Failed => rfl
    | KeyExchange_Done => rfl

theorem SendMessage_state_fields (lib : Library G K B A) (p : EstablishedPeer G K A)
    (body : Bytes) :
    (SendMessage lib p body).state.kxState = p.kxState ∧
    (SendMessage lib p body).state.dhGroup = p.dhGroup ∧
    (SendMessage lib p body).state.dhKeypair = p.dhKeypair ∧
    (SendMessage lib p body).state.aead = p.aead := by
  unfold SendMessage
  cases h : p.aead <;> simp [h, Outcome.state]

theorem UnwrapMessage_state_fields (lib : Library G K B A) (p : EstablishedPeer G K A)
    (raw : Bytes) :
    (UnwrapMessage lib p raw).state.kxState = p.kxState ∧
    (UnwrapMessage lib p raw).state.dhGroup = p.dhGroup ∧
    (UnwrapMessage lib p raw).state.dhKeypair = p.dhKeypair ∧
    (UnwrapMessage lib p raw).state.aead = p.aead := by
  unfold UnwrapMessage
  cases h : p.aead <;> simp [h, Outcome.state]

theorem continueKeyExchange_cipherInvariant (lib : Library G K B A)
    (p : EstablishedPeer G K A) (idAdapter : IdentityAdapter) (raw : Bytes)
    (h : CipherInvariant p) :
    CipherInvariant (continueKeyExchange lib p idAdapter raw).state := by
  rcases continueKeyExchange_state_cases_waiting lib p idAdapter raw with
    h1 | ⟨hW, h1 | ⟨ad, h1⟩ | ⟨ad, a, h1⟩⟩ <;> rw [h1]
  · exact h
  · have hn : ¬ ∃ a, p.aead = some a := fun hx => by
      have := h.2.mp hx
      rcases hW with hs | hs <;> rw [hs] at this <;> cases this
    exact ⟨(fun hx => by cases hx), ⟨fun hx => absurd hx hn, fun hd => by cases hd⟩⟩
  · have hn : ¬ ∃ a, p.aead = some a := fun hx => by
      have := h.2.mp hx
      rcases hW with hs | hs <;> rw [hs] at this <;> cases this
    exact ⟨(fun hx => by cases hx), ⟨fun hx => absurd hx hn, fun hd => by cases hd⟩⟩
  · exact ⟨(fun hx => by cases hx), ⟨fun _ => rfl, fun _ => ⟨a, rfl⟩⟩⟩

theorem reachable_cipherInvariant (lib : Library G K B A) (p : EstablishedPeer G K A)
    (h : Reachable lib p) : CipherInvariant p := by
  induction h with
  | establish rand idAdapter adapter passive p hp =>
    obtain ⟨hW, _, _, ha, _, _⟩ := establish_ok_shape lib rand idAdapter adapter passive p hp
    refine ⟨?_, ?_, ?_⟩
    · rcases hW with hs | hs <;> rw [hs] <;> decide
    · rintro ⟨a, hx⟩; rw [ha] at hx; cases hx
    · intro hd; rcases hW with hs | hs <;> rw [hs] at hd <;> cases hd
  | continueKx p idAdapter raw _ ih =>
    exact continueKeyExchange_cipherInvariant lib p idAdapter raw ih
  | send p body _ ih =>
    obtain ⟨h1, _, _, h4⟩ := SendMessage_state_fields lib p body
    unfold CipherInvariant
    rw [h1, h4]; exact ih
  | unwrap p raw _ ih =>
    obtain ⟨h1, _, _, h4⟩ := UnwrapMessage_state_fields lib p raw
    unfold CipherInvariant
    rw [h1, h4]; exact ih

theorem reachable_keysWhileWaiting (lib : Library G K B A) (p : EstablishedPeer G K A)
    (h : Reachable lib p) : KeysWhileWaiting p := by
  induction h with
  | establish rand idAdapter adapter passive p hp =>
    obtain ⟨_, hg, hk, _⟩ := establish_ok_shape lib rand idAdapter adapter passive p hp
    exact fun _ => ⟨hg, hk⟩
  | continueKx p idAdapter raw _ ih =>
    rcases continueKeyExchange_state_cases_waiting lib p idAdapter raw with
      h1 | ⟨_, h1 | ⟨ad, h1⟩ | ⟨ad, a, h1⟩⟩ <;> rw [h1]
    · exact ih
    · intro hs; rcases hs with hs | hs <;> cases hs
    · intro hs; rcases hs with hs | hs <;> cases hs
    · intro hs; rcases hs with hs | hs <;> cases hs
  | send p body _ ih =>
    obtain ⟨h1, h2, h3, _⟩ := SendMessage_state_fields lib p body
    unfold KeysWhileWaiting
    rw [h1, h2, h3]; exact ih
  | unwrap p raw _ ih =>
    obtain ⟨h1, h2, h3, _⟩ := UnwrapMessage_state_fields lib p raw
    unfold KeysWhileWaiting
    rw [h1, h2, h3]; exact ih

/-- The block cipher constructor of the sample library accepts only keys of
16, 24 or 32 bytes. -/
theorem sampleLibrary_newCipher_sizes (e : Nat) (key blk : Bytes)
    (h : (sampleLibrary e).NewCipher key = .ok blk) :
    key.length = 16 ∨ key.length = 24 ∨ key.length = 32 := by
  by_cases hk : key.length = 16 ∨ key.length = 24 ∨ key.length = 32
  · exact hk
  · simp [sampleLibrary, hk] at h

theorem bigEndian_length (width v : Nat) : (bigEndian width v).length = width := by
  simp [bigEndian, littleEndian_length]

theorem establish_ok_group (lib : Library G K B A) (rand : Bytes)
    (idAdapter : IdentityAdapter) (adapter : MessageAdapter) (passive : Bool)
    (p : EstablishedPeer G K A)
    (h : (EstablishPeerWithMessageAdapter lib rand idAdapter adapter passive).2 = .ok p) :
    ∃ g, lib.GetGroup 0 = .ok g ∧ p.dhGroup = some g := by
  unfold EstablishPeerWithMessageAdapter at h
  cases hG : lib.GetGroup 0 with
  | error e => simp [hG] at h
  | ok g =>
    cases hK : lib.GeneratePrivateKey g rand with
    | error e => simp [hG, hK] at h
    | ok k =>
      cases passive with
      | true =>
        simp [hG, hK] at h
        rw [← h]; exact ⟨g, rfl, rfl⟩
      | false =>
        cases hS : (adapter.SendMessage
            (prependSimpleSignature idAdapter (lib.KeyBytes k))).2 with
        | some e => simp [hG, hK, hS] at h
        | none =>
          simp [hG, hK, hS] at h
          rw [← h]; exact ⟨g, rfl, rfl⟩

/-- A `continueKeyExchange` call on a handle that is not in `Done` does not
end in `Done` when the block cipher constructor rejects every secret the
handle's group and keypair can produce; the group field is kept or cleared. -/
theorem continueKeyExchange_not_done (lib : Library G K B A)
    (p : EstablishedPeer G K A) (idAdapter : IdentityAdapter) (raw : Bytes)
    (hp : p.kxState ≠ KeyExchange_Done)
    (hbad : ∀ g kp pub s blk, p.dhGroup = some g → p.dhKeypair = some kp →
      lib.ComputeKey g pub kp = .ok s → lib.NewCipher (lib.KeyBytes s) ≠ .ok blk) :
    (continueKeyExchange lib p idAdapter raw).state.kxState ≠ KeyExchange_Done ∧
    ((continueKeyExchange lib p idAdapter raw).state.dhGroup = p.dhGroup ∨
      (continueKeyExchange lib p idAdapter raw).state.dhGroup = none) := by
  by_cases hW : p.kxState = KeyExchange_ActivelyWaitForPublicKey ∨
      p.kxState = KeyExchange_PassivelyWaitForPublicKey
  · rw [continueKeyExchange_of_waiting lib p idAdapter raw hW]
    unfold continueWaiting
    by_cases hLen : raw.length < idAdapter.SignatureSize
    · simp [hLen, Outcome.state, hp]
    · cases hVer : idAdapter.Verify p.adapter.RemoteEndpoint
          (raw.drop idAdapter.SignatureSize) (raw.take idAdapter.SignatureSize) with
      | false => simp [hLen, hVer, Outcome.state, hp]
      | true =>
        cases hg : p.dhGroup with
        | none => simp [hLen, hVer, hg, Outcome.state, hp]
        | some g =>
          cases hk : p.dhKeypair with
          | none => simp [hLen, hVer, hg, hk, Outcome.state, hp]
          | some kp =>
            cases hDH : lib.ComputeKey g
                (lib.NewPublicKey (raw.drop idAdapter.SignatureSize)) kp with
            | error e => simp [hLen, hVer, hg, hk, hDH, Outcome.state]
            | ok s =>
              cases hC : lib.NewCipher (lib.KeyBytes s) with
              | error e => simp [hLen, hVer, hg, hk, hDH, hC, Outcome.state]
              | ok blk => exact absurd hC (hbad g kp _ s blk hg hk hDH)
  · have h1 : (continueKeyExchange lib p idAdapter raw).state = p := by
      rcases continueKeyExchange_state_cases_waiting lib p idAdapter raw with h1 | ⟨hW1, _⟩
      · exact h1
      · exact absurd hW1 hW
    rw [h1]
    exact ⟨hp, Or.inl rfl⟩

/-- In the library of `dhkx.GetGroup(0)` no handle reachable from
`EstablishPeerWithMessageAdapter` is ever in `Done`, whatever the keypairs and
the messages: every shared secret is encoded on 256 bytes, which the block
cipher constructor rejects. -/
theorem modp2048Library_never_done (p : EstablishedPeer SampleGroup SampleKey Bytes)
    (h : Reachable modp2048Library p) :
    p.kxState ≠ KeyExchange_Done ∧ ∀ g, p.dhGroup = some g → g.width = 256 := by
  induction h with
  | establish rand idAdapter adapter passive p hp =>
    obtain ⟨hW, _⟩ := establish_ok_shape modp2048Library rand idAdapter adapter passive p hp
    obtain ⟨g, hG, hg⟩ :=
      establish_ok_group modp2048Library rand idAdapter adapter passive p hp
    have hgm : g = modp2048 := by
      have : modp2048Library.GetGroup 0 = .ok modp2048 := rfl
      rw [this] at hG
      exact (Except.ok.inj hG).symm
    refine ⟨?_, ?_⟩
    · rcases hW with hs | hs <;> rw [hs] <;> exact fun hx => by cases hx
    · intro g1 hg1
      rw [hg] at hg1
      rw [← Option.some.inj hg1, hgm]
      rfl
  | continueKx p idAdapter raw _ ih =>
    have hbad : ∀ g kp pub s blk, p.dhGroup = some g → p.dhKeypair = some kp →
        modp2048Library.ComputeKey g pub kp = .ok s →
        modp2048Library.NewCipher (modp2048Library.KeyBytes s) ≠ .ok blk := by
      intro g kp pub s blk hg _ hDH hC
      have hw := ih.2 g hg
      have hs : s.width = 256 := by
        by_cases hc : pub.y = 0 ∨ g.p ≤ pub.y
        · simp [modp2048Library, sampleLibrary, hc] at hDH
        · simp [modp2048Library, sampleLibrary, hc] at hDH
          rw [← hDH]; exact hw
      have hl : (modp2048Library.KeyBytes s).length = 256 := by
        show (bigEndian s.width s.y).length = 256
        rw [bigEndian_length, hs]
      have hsz := sampleLibrary_newCipher_sizes 127 (modp2048Library.KeyBytes s) blk hC
      rw [hl] at hsz
      omega
    obtain ⟨h1, h2⟩ := continueKeyExchange_not_done modp2048Library p idAdapter raw ih.1 hbad
    refine ⟨h1, ?_⟩
    intro g hg
    rcases h2 with h2 | h2
    · rw [h2] at hg; exact ih.2 g hg
    · rw [h2] at hg; cases hg
  | send p body _ ih =>
    obtain ⟨h1, h2, _, _⟩ := SendMessage_state_fields modp2048Library p body
    rw [h1, h2]; exact ih
  | unwrap p raw _ ih =>
    obtain ⟨h1, h2, _, _⟩ := UnwrapMessage_state_fields modp2048Library p raw
    rw [h1, h2]; exact ih

/-- The twelve bytes of the nonce buffer of a counter, spelled out. -/
theorem nonceBuffer_bytes (c : Nat) :
    nonceBuffer c =
      [Fin.ofNat c, Fin.ofNat (c / 256), Fin.ofNat (c / 256 ^ 2), Fin.ofNat (c / 256 ^ 3),
        Fin.ofNat (c / 256 ^ 4), Fin.ofNat (c / 256 ^ 5), Fin.ofNat (c / 256 ^ 6),
        Fin.ofNat (c / 256 ^ 7), 0, 0, 0, 0] := by
  simp [nonceBuffer, PutUint64, littleEndian, Nat.div_div_eq_div_mul]

/-! ### The claims -/

/-- C1. Round trip: when two handles in state `Done` hold the same AEAD
context and the sender's send counter equals the receiver's receive counter,
`SendMessage` hands exactly one ciphertext to the transport, `UnwrapMessage`
on the receiver returns the payload from that ciphertext without error, and
the two counters are equal afterwards. The AEAD law is a hypothesis. -/
theorem sendMessage_unwrapMessage_roundTrip (lib : Library G K B A)
    (pA pB : EstablishedPeer G K A) (a : A) (m : Bytes)
    (hA : pA.kxState = KeyExchange_Done) (hB : pB.kxState = KeyExchange_Done)
    (hAa : pA.aead = some a) (hBa : pB.aead = some a)
    (hCnt : pA.localNonce = pB.remoteNonce)
    (hLaw : ∀ nonce, lib.Open a nonce (lib.Seal a nonce m []) [] = .ok m) :
    ∃ ct pA1 e pB1,
      SendMessage lib pA m = .ret pA1 e ∧
      pA1.adapter.sent = pA.adapter.sent ++ [ct] ∧
      UnwrapMessage lib pB ct = .ret pB1 (.ok m) ∧
      pA1.localNonce = pB1.remoteNonce ∧
      pA1.kxState = KeyExchange_Done ∧ pB1.kxState = KeyExchange_Done := by
  have hS : SendMessage lib pA m =
      .ret { pA with
              localNonce := incr64 pA.localNonce,
              adapter := (pA.adapter.SendMessage
                (lib.Seal a (nonceBuffer pA.localNonce) m [])).1 }
        (pA.adapter.SendMessage (lib.Seal a (nonceBuffer pA.localNonce) m [])).2 := by
    simp only [SendMessage, hAa]
  have hU : UnwrapMessage lib pB (lib.Seal a (nonceBuffer pA.localNonce) m []) =
      .ret { pB with remoteNonce := incr64 pB.remoteNonce } (.ok m) := by
    simp only [UnwrapMessage, hBa, hCnt, hLaw]
  exact ⟨_, _, _, _, hS, rfl, hU, congrArg incr64 hCnt, hA, hB⟩

/-- Witness for C1 on the sample library: the empty payload, counters at 5. -/
theorem sendMessage_unwrapMessage_roundTrip_witness :
    ∃ ct pA1 e pB1,
      SendMessage (sampleLibrary 127) (sampleDone [1, 2] 5 0 false) [] = .ret pA1 e ∧
      pA1.adapter.sent = (sampleDone [1, 2] 5 0 false).adapter.sent ++ [ct] ∧
      UnwrapMessage (sampleLibrary 127) (sampleDone [1, 2] 0 5 true) ct = .ret pB1 (.ok []) ∧
      pA1.localNonce = pB1.remoteNonce ∧
      pA1.kxState = KeyExchange_Done ∧ pB1.kxState = KeyExchange_Done :=
  sendMessage_unwrapMessage_roundTrip (sampleLibrary 127) (sampleDone [1, 2] 5 0 false)
    (sampleDone [1, 2] 0 5 true) [1, 2] [] rfl rfl rfl rfl rfl
    (by intro nonce; simp [sampleLibrary])

/-- C2 (amended). Nonce uniqueness up to the counter range: in a run of
`N ≤ 2 ^ 64` consecutive `SendMessage` calls on a handle holding an AEAD
context whose send counter starts at 0, the call of index `i` reads counter
value `i` and hands to the transport the seal of its payload under the nonce
encoding `i`; the AEAD context is unchanged, the counter values are strictly
increasing and the nonces are pairwise distinct. -/
theorem sendMessage_nonces_distinct (lib : Library G K B A) (p : EstablishedPeer G K A)
    (a : A) (msgs : List Bytes) (hAead : p.aead = some a) (h0 : p.localNonce = 0)
    (hN : msgs.length ≤ 2 ^ 64) :
    sendCounters lib p msgs = List.range msgs.length ∧
    sealNonces lib p msgs = (List.range msgs.length).map nonceBuffer ∧
    (sendAll lib p msgs).adapter.sent =
      p.adapter.sent ++
        List.zipWith (fun nonce body => lib.Seal a nonce body [])
          ((List.range msgs.length).map nonceBuffer) msgs ∧
    (sendAll lib p msgs).aead = some a ∧
    (sendCounters lib p msgs).Pairwise (· < ·) ∧
    (sealNonces lib p msgs).Nodup := by
  have hc : sendCounters lib p msgs = List.range msgs.length := by
    rw [sendCounters_eq lib msgs p (by rw [h0]; norm_num), h0]
    conv_rhs => rw [← List.map_id (List.range msgs.length)]
    apply List.map_congr_left
    intro i hi
    have := List.mem_range.mp hi
    simp only [id]
    omega
  have hn : sealNonces lib p msgs = (List.range msgs.length).map nonceBuffer := by
    rw [sealNonces_eq_map, hc]
  refine ⟨hc, hn, ?_, ?_, ?_, ?_⟩
  · rw [sendAll_sent lib a msgs p hAead, hn]
  · rw [sendAll_aead, hAead]
  · rw [hc]; exact List.pairwise_lt_range _
  · rw [hn]
    apply List.Nodup.map_on _ (List.nodup_range _)
    intro x hx y hy hxy
    have hx1 := List.mem_range.mp hx
    have hy1 := List.mem_range.mp hy
    exact nonceBuffer_inj x y (by omega) (by omega) hxy

/-- Witness for C2 (amended): three sends on a sample handle in state `Done`. -/
theorem sendMessage_nonces_distinct_witness :
    sendCounters (sampleLibrary 127) (sampleDone [1, 2] 0 0 false) [[1], [], [2, 3]] =
      List.range 3 ∧
    sealNonces (sampleLibrary 127) (sampleDone [1, 2] 0 0 false) [[1], [], [2, 3]] =
      (List.range 3).map nonceBuffer ∧
    (sendAll (sampleLibrary 127) (sampleDone [1, 2] 0 0 false)
        [[1], [], [2, 3]]).adapter.sent =
      (sampleDone [1, 2] 0 0 false).adapter.sent ++
        List.zipWith (fun nonce body => (sampleLibrary 127).Seal [1, 2] nonce body [])
          ((List.range 3).map nonceBuffer) [[1], [], [2, 3]] ∧
    (sendAll (sampleLibrary 127) (sampleDone [1, 2] 0 0 false) [[1], [], [2, 3]]).aead =
      some [1, 2] ∧
    (sendCounters (sampleLibrary 127) (sampleDone [1, 2] 0 0 false)
      [[1], [], [2, 3]]).Pairwise (· < ·) ∧
    (sealNonces (sampleLibrary 127) (sampleDone [1, 2] 0 0 false) [[1], [], [2, 3]]).Nodup :=
  sendMessage_nonces_distinct (sampleLibrary 127) (sampleDone [1, 2] 0 0 false) [1, 2]
    [[1], [], [2, 3]] rfl rfl (by decide)

/-- Counterexample to C2 as stated (every `N`): in a run of `2 ^ 64 + 1` sends
from counter 0 the nonces are not pairwise distinct, because the `uint64`
counter wraps and the last call builds the nonce of the first. -/
theorem sendMessage_nonces_repeat_after_wrap :
    ¬ (sealNonces (sampleLibrary 127) (sampleDone [1, 2] 0 0 false)
        (List.replicate (2 ^ 64 + 1) [])).Nodup := by
  intro h
  have hlen : 2 ^ 64 < (List.replicate (2 ^ 64 + 1) ([] : Bytes)).length := by
    rw [List.length_replicate]; exact Nat.lt_succ_self _
  have hw := sealNonces_wrap (sampleLibrary 127) (sampleDone [1, 2] 0 0 false)
    (List.replicate (2 ^ 64 + 1) []) rfl hlen
  have hlen2 : 2 ^ 64 < (sealNonces (sampleLibrary 127) (sampleDone [1, 2] 0 0 false)
      (List.replicate (2 ^ 64 + 1) [])).length := by
    rw [sealNonces_length]; exact hlen
  exact (List.nodup_iff_getElem?_ne_getElem?.mp h 0 (2 ^ 64)
    (Nat.pos_pow_of_pos 64 (by decide)) hlen2) hw.symm

set_option maxRecDepth 20000 in
/-- C3, evaluated at a failing input: the group `dhkx.GetGroup(0)` returns, the
2048-bit group `modp2048`, with private exponents 10 and 12. The initiator is
established with `passive = false`, the responder with `passive = true`; each
side accepts the other's signature, both Diffie-Hellman computations succeed
with the same secret `s`, whose encoding is 256 bytes long, and the two
messages are delivered in order. Both `continueKeyExchange` calls return the
block cipher's key-size error and both handles end in `Failed`, not `Done`. -/
theorem handshake_fails_in_group_zero :
    ∃ adA1 pA pB msgA s pB1 msgB pA1,
      modp2048Library.GetGroup 0 = .ok modp2048 ∧
      EstablishPeerWithMessageAdapter modp2048Library [10] (sampleIdentity 1)
        (sampleTransport 2 false) false = (adA1, .ok pA) ∧
      adA1.sent = [msgA] ∧
      EstablishPeerWithMessageAdapter modp2048Library [12] (sampleIdentity 2)
        (sampleTransport 1 false) true = (sampleTransport 1 false, .ok pB) ∧
      (sampleIdentity 2).Verify [1] (msgA.drop 2) (msgA.take 2) = true ∧
      modp2048Library.ComputeKey modp2048 (modp2048Library.NewPublicKey (msgA.drop 2))
        { x := 12, y := 4096, width := 256 } = .ok s ∧
      (modp2048Library.KeyBytes s).length = 256 ∧
      continueKeyExchange modp2048Library pB (sampleIdentity 2) msgA =
        .ret pB1 (some (.external "crypto/aes: invalid key size")) ∧
      pB1.kxState = KeyExchange_Failed ∧ pB1.aead = none ∧ pB1.adapter.sent = [msgB] ∧
      (sampleIdentity 1).Verify [2] (msgB.drop 2) (msgB.take 2) = true ∧
      modp2048Library.ComputeKey modp2048 (modp2048Library.NewPublicKey (msgB.drop 2))
        { x := 10, y := 1024, width := 256 } = .ok s ∧
      continueKeyExchange modp2048Library pA (sampleIdentity 1) msgB =
        .ret pA1 (some (.external "crypto/aes: invalid key size")) ∧
      pA1.kxState = KeyExchange_Failed ∧ pA1.aead = none :=
  ⟨_, _, _, _, _, _, _, _, rfl, rfl, rfl, rfl, rfl, rfl, rfl, rfl, rfl, rfl, rfl, rfl, rfl,
    rfl, rfl, rfl⟩

/-- C4. Signature failure is non-destructive: in a waiting state, for a raw
message at least `SignatureSize()` long whose signature part does not verify
against the remote endpoint over the key part, `continueKeyExchange` returns
the signature error and leaves the handle, its transport included, exactly as
it was; the handle is not in `Done` afterwards. -/
theorem continueKeyExchange_signature_failure (lib : Library G K B A)
    (p : EstablishedPeer G K A) (idAdapter : IdentityAdapter) (raw : Bytes)
    (hState : p.kxState = KeyExchange_ActivelyWaitForPublicKey ∨
      p.kxState = KeyExchange_PassivelyWaitForPublicKey)
    (hLen : idAdapter.SignatureSize ≤ raw.length)
    (hVer : idAdapter.Verify p.adapter.RemoteEndpoint (raw.drop idAdapter.SignatureSize)
      (raw.take idAdapter.SignatureSize) = false) :
    continueKeyExchange lib p idAdapter raw = .ret p (some .signatureVerificationFailed) ∧
    (continueKeyExchange lib p idAdapter raw).state.adapter.sent = p.adapter.sent ∧
    (continueKeyExchange lib p idAdapter raw).state.kxState ≠ KeyExchange_Done := by
  have h : continueKeyExchange lib p idAdapter raw =
      .ret p (some .signatureVerificationFailed) := by
    rw [continueKeyExchange_of_waiting lib p idAdapter raw hState]
    simp [continueWaiting, Nat.not_lt.mpr hLen, hVer]
  rw [h]
  refine ⟨rfl, rfl, ?_⟩
  rcases hState with hs | hs <;> simp [Outcome.state, hs]

/-- Witness for C4: the sample responder receives a message whose signature
bytes are wrong. -/
theorem continueKeyExchange_signature_failure_witness :
    continueKeyExchange (sampleLibrary 127) (sampleWaiting 127 12 1 true false)
        (sampleIdentity 2) [9, 9, 4, 0] =
      .ret (sampleWaiting 127 12 1 true false) (some .signatureVerificationFailed) ∧
    (continueKeyExchange (sampleLibrary 127) (sampleWaiting 127 12 1 true false)
        (sampleIdentity 2) [9, 9, 4, 0]).state.adapter.sent =
      (sampleWaiting 127 12 1 true false).adapter.sent ∧
    (continueKeyExchange (sampleLibrary 127) (sampleWaiting 127 12 1 true false)
        (sampleIdentity 2) [9, 9, 4, 0]).state.kxState ≠ KeyExchange_Done :=
  continueKeyExchange_signature_failure (sampleLibrary 127)
    (sampleWaiting 127 12 1 true false) (sampleIdentity 2) [9, 9, 4, 0]
    (Or.inr rfl) (by decide) rfl

/-- C7. Sticky failure: in state `Failed`, `continueKeyExchange` returns the
"failed previously" error for every library, identity adapter and raw message
(so the result depends on none of them: nothing is verified, computed or sent)
and leaves the handle unchanged; after any number of further calls the handle
is the same and still in `Failed`. -/
theorem continueKeyExchange_failed_sticky (lib : Library G K B A)
    (p : EstablishedPeer G K A) (idAdapter : IdentityAdapter) (raw : Bytes)
    (hState : p.kxState = KeyExchange_Failed) :
    continueKeyExchange lib p idAdapter raw = .ret p (some .failedPreviously) ∧
    ∀ calls : List (IdentityAdapter × Bytes),
      continueAll lib p calls = p ∧
      (continueAll lib p calls).kxState = KeyExchange_Failed := by
  have h : ∀ (i : IdentityAdapter) (r : Bytes),
      continueKeyExchange lib p i r = .ret p (some .failedPreviously) := by
    intro i r
    simp [continueKeyExchange, hState]
  refine ⟨h idAdapter raw, ?_⟩
  intro calls
  have hall : continueAll lib p calls = p := by
    induction calls with
    | nil => rfl
    | cons c cs ih => rw [continueAll, h c.1 c.2]; exact ih
  rw [hall]
  exact ⟨rfl, hState⟩

/-- Witness for C7: a failed sample handle and a one-byte raw message, shorter
than the signature size. -/
theorem continueKeyExchange_failed_sticky_witness :
    continueKeyExchange (sampleLibrary 127) sampleFailed (sampleIdentity 2) [5] =
      .ret sampleFailed (some .failedPreviously) ∧
    ∀ calls : List (IdentityAdapter × Bytes),
      continueAll (sampleLibrary 127) sampleFailed calls = sampleFailed ∧
      (continueAll (sampleLibrary 127) sampleFailed calls).kxState = KeyExchange_Failed :=
  continueKeyExchange_failed_sticky (sampleLibrary 127) sampleFailed (sampleIdentity 2) [5] rfl

/-- C5. The responder authenticates before revealing its key: establishing a
passive handle leaves the transport untouched, and every `continueKeyExchange`
call on any handle either leaves the transport untouched or is a call on a
handle in `PassivelyWaitForPublicKey` whose raw message passed signature
verification against the remote endpoint, in which case exactly the signed
ephemeral public key is handed to the transport. -/
theorem responder_sends_only_after_verification (lib : Library G K B A) :
    (∀ (rand : Bytes) (idAdapter : IdentityAdapter) (adapter : MessageAdapter),
      (EstablishPeerWithMessageAdapter lib rand idAdapter adapter true).1 = adapter) ∧
    ∀ (p : EstablishedPeer G K A) (idAdapter : IdentityAdapter) (raw : Bytes),
      (continueKeyExchange lib p idAdapter raw).state.adapter = p.adapter ∨
      (p.kxState = KeyExchange_PassivelyWaitForPublicKey ∧
        idAdapter.SignatureSize ≤ raw.length ∧
        idAdapter.Verify p.adapter.RemoteEndpoint (raw.drop idAdapter.SignatureSize)
          (raw.take idAdapter.SignatureSize) = true ∧
        ∃ kp, p.dhKeypair = some kp ∧
          (continueKeyExchange lib p idAdapter raw).state.adapter.sent =
            p.adapter.sent ++ [prependSimpleSignature idAdapter (lib.KeyBytes kp)]) := by
  constructor
  · intro rand idAdapter adapter
    unfold EstablishPeerWithMessageAdapter
    split
    · rfl
    · split
      · rfl
      · simp
  · intro p idAdapter raw
    by_cases hP : p.kxState = KeyExchange_PassivelyWaitForPublicKey
    · by_cases hLen : raw.length < idAdapter.SignatureSize
      · left
        simp [continueKeyExchange, continueWaiting, hP, hLen, Outcome.state]
      · cases hVer : idAdapter.Verify p.adapter.RemoteEndpoint
            (raw.drop idAdapter.SignatureSize) (raw.take idAdapter.SignatureSize) with
        | false =>
          left
          simp [continueKeyExchange, continueWaiting, hP, hLen, hVer, Outcome.state]
        | true =>
          cases hg : p.dhGroup with
          | none =>
            left
            simp [continueKeyExchange, continueWaiting, hP, hLen, hVer, hg, Outcome.state]
          | some g =>
            cases hk : p.dhKeypair with
            | none =>
              left
              simp [continueKeyExchange, continueWaiting, hP, hLen, hVer, hg, hk,
                Outcome.state]
            | some kp =>
              cases hDH : lib.ComputeKey g
                  (lib.NewPublicKey (raw.drop idAdapter.SignatureSize)) kp with
              | error e =>
                left
                simp [continueKeyExchange, continueWaiting, hP, hLen, hVer, hg, hk, hDH,
                  Outcome.state]
              | ok s =>
                right
                refine ⟨hP, Nat.le_of_not_lt hLen, rfl, kp, rfl, ?_⟩
                cases hC : lib.NewCipher (lib.KeyBytes s) with
                | error e =>
                  simp [continueKeyExchange, continueWaiting, hP, hLen, hVer, hg, hk, hDH,
                    hC, Outcome.state, MessageAdapter.SendMessage]
                | ok blk =>
                  cases hGCM : lib.NewGCM blk <;>
                    simp [continueKeyExchange, continueWaiting, hP, hLen, hVer, hg, hk, hDH,
                      hC, hGCM, Outcome.state, MessageAdapter.SendMessage]
    · left
      unfold continueKeyExchange continueWaiting
      split
      · simp only [hP, if_false]
        repeat' split
        all_goals rfl
      · exact absurd (by assumption) hP
      · rfl
      · rfl

/-- C6. Forward-secrecy invariant: a handle reachable from
`EstablishPeerWithMessageAdapter` by `continueKeyExchange`, `SendMessage` and
`UnwrapMessage` calls that is in state `Done` holds neither the ephemeral
group nor the ephemeral keypair; and every `continueKeyExchange` call on a
reachable handle in which the shared secret is computed returns with both
fields nil, whatever the cipher constructions then answer. -/
theorem done_has_no_ephemeral_keys (lib : Library G K B A) (p : EstablishedPeer G K A)
    (hR : Reachable lib p) :
    (p.kxState = KeyExchange_Done → p.dhGroup = none ∧ p.dhKeypair = none) ∧
    ∀ (idAdapter : IdentityAdapter) (raw : Bytes) (g : G) (kp s : K),
      (p.kxState = KeyExchange_ActivelyWaitForPublicKey ∨
        p.kxState = KeyExchange_PassivelyWaitForPublicKey) →
      idAdapter.SignatureSize ≤ raw.length →
      idAdapter.Verify p.adapter.RemoteEndpoint (raw.drop idAdapter.SignatureSize)
        (raw.take idAdapter.SignatureSize) = true →
      p.dhGroup = some g → p.dhKeypair = some kp →
      lib.ComputeKey g (lib.NewPublicKey (raw.drop idAdapter.SignatureSize)) kp = .ok s →
      ∃ p1 r, continueKeyExchange lib p idAdapter raw = .ret p1 r ∧
        p1.dhGroup = none ∧ p1.dhKeypair = none := by
  refine ⟨fun hd => ⟨(reachable_doneInvariant lib p hR hd).1,
    (reachable_doneInvariant lib p hR hd).2.1⟩, ?_⟩
  intro idAdapter raw g kp s hW hLen hVer hg hk hDH
  rw [continueKeyExchange_of_waiting lib p idAdapter raw hW]
  cases hC : lib.NewCipher (lib.KeyBytes s) with
  | error e =>
    refine ⟨{ p with
        adapter :=
          if p.kxState = KeyExchange_PassivelyWaitForPublicKey then
            (p.adapter.SendMessage (prependSimpleSignature idAdapter (lib.KeyBytes kp))).1
          else p.adapter,
        dhGroup := none, dhKeypair := none, kxState := KeyExchange_Failed }, some e, ?_, rfl, rfl⟩
    by_cases hP : p.kxState = KeyExchange_PassivelyWaitForPublicKey <;>
      simp [continueWaiting, Nat.not_lt.mpr hLen, hVer, hg, hk, hDH, hC, hP]
  | ok blk =>
    cases hGCM : lib.NewGCM blk with
    | error e =>
      refine ⟨{ p with
          adapter :=
            if p.kxState = KeyExchange_PassivelyWaitForPublicKey then
              (p.adapter.SendMessage (prependSimpleSignature idAdapter (lib.KeyBytes kp))).1
            else p.adapter,
          dhGroup := none, dhKeypair := none, kxState := KeyExchange_Failed }, some e, ?_,
        rfl, rfl⟩
      by_cases hP : p.kxState = KeyExchange_PassivelyWaitForPublicKey <;>
        simp [continueWaiting, Nat.not_lt.mpr hLen, hVer, hg, hk, hDH, hC, hGCM, hP]
    | ok a =>
      refine ⟨{ p with
          adapter :=
            if p.kxState = KeyExchange_PassivelyWaitForPublicKey then
              (p.adapter.SendMessage (prependSimpleSignature idAdapter (lib.KeyBytes kp))).1
            else p.adapter,
          dhGroup := none, dhKeypair := none, aead := some a,
          kxState := KeyExchange_Done }, none, ?_, rfl, rfl⟩
      by_cases hP : p.kxState = KeyExchange_PassivelyWaitForPublicKey <;>
        simp [continueWaiting, Nat.not_lt.mpr hLen, hVer, hg, hk, hDH, hC, hGCM, hP]

/-- Witness for C6: the sample responder after the handshake is in `Done` and
holds no ephemeral group or keypair. -/
theorem done_has_no_ephemeral_keys_witness :
    sampleResponderDone.kxState = KeyExchange_Done ∧
    sampleResponderDone.dhGroup = none ∧ sampleResponderDone.dhKeypair = none :=
  ⟨rfl, (done_has_no_ephemeral_keys (sampleLibrary 127) sampleResponderDone
    sampleResponderDone_reachable).1 rfl⟩

/-- C8, evaluated at a failing input. A passive sample handle whose transport
fails every send receives the correctly signed sample handshake message: the
send of the signed public key reports an error, and `continueKeyExchange`
nevertheless returns nil and leaves the handle in `Done`. -/
theorem response_send_error_is_dropped :
    ((sampleWaiting 127 12 1 true true).adapter.SendMessage
      (prependSimpleSignature (sampleIdentity 2)
        ((sampleLibrary 127).KeyBytes { x := 12, y := 4096, width := 16 }))).2 =
      some (.external "send failed") ∧
    ∃ p1, continueKeyExchange (sampleLibrary 127) (sampleWaiting 127 12 1 true true)
        (sampleIdentity 2) (sampleHello 127) = .ret p1 none ∧
      p1.kxState = KeyExchange_Done ∧
      p1.adapter.sent =
        [prependSimpleSignature (sampleIdentity 2)
          ((sampleLibrary 127).KeyBytes { x := 12, y := 4096, width := 16 })] :=
  ⟨rfl, _, rfl, rfl, rfl⟩

/-- C9. Effect of `SendMessage`: on a handle in state `Done` holding the AEAD
context `a`, with pre-call send counter `c`, the call returns; it hands
exactly one message to the transport, the seal under `a` of the payload, with
empty additional data, under the 12-byte nonce whose byte `i < 8` is
`(c / 256 ^ i) % 256` and whose last four bytes are zero; it returns the
transport's result for that message; the send counter becomes
`(c + 1) % 2 ^ 64` whatever that result is; the receive counter, the AEAD
context, the state and the ephemeral fields are unchanged. -/
theorem sendMessage_effect (lib : Library G K B A) (p : EstablishedPeer G K A) (a : A)
    (body : Bytes) (hDone : p.kxState = KeyExchange_Done) (ha : p.aead = some a) :
    ∃ p1,
      SendMessage lib p body =
        .ret p1 (p.adapter.sendErr p.adapter.sent
          (lib.Seal a
            [Fin.ofNat p.localNonce, Fin.ofNat (p.localNonce / 256),
              Fin.ofNat (p.localNonce / 256 ^ 2), Fin.ofNat (p.localNonce / 256 ^ 3),
              Fin.ofNat (p.localNonce / 256 ^ 4), Fin.ofNat (p.localNonce / 256 ^ 5),
              Fin.ofNat (p.localNonce / 256 ^ 6), Fin.ofNat (p.localNonce / 256 ^ 7),
              0, 0, 0, 0] body [])) ∧
      p1.adapter.sent =
        p.adapter.sent ++
          [lib.Seal a
            [Fin.ofNat p.localNonce, Fin.ofNat (p.localNonce / 256),
              Fin.ofNat (p.localNonce / 256 ^ 2), Fin.ofNat (p.localNonce / 256 ^ 3),
              Fin.ofNat (p.localNonce / 256 ^ 4), Fin.ofNat (p.localNonce / 256 ^ 5),
              Fin.ofNat (p.localNonce / 256 ^ 6), Fin.ofNat (p.localNonce / 256 ^ 7),
              0, 0, 0, 0] body []] ∧
      p1.adapter.RemoteEndpoint = p.adapter.RemoteEndpoint ∧
      p1.adapter.sendErr = p.adapter.sendErr ∧
      p1.localNonce = (p.localNonce + 1) % 2 ^ 64 ∧
      p1.remoteNonce = p.remoteNonce ∧
      p1.aead = some a ∧
      p1.kxState = KeyExchange_Done ∧
      p1.dhGroup = p.dhGroup ∧ p1.dhKeypair = p.dhKeypair := by
  refine ⟨{ p with
      localNonce := incr64 p.localNonce,
      adapter := (p.adapter.SendMessage
        (lib.Seal a (nonceBuffer p.localNonce) body [])).1 }, ?_, ?_, rfl, rfl, rfl, rfl, ha,
    hDone, rfl, rfl⟩
  · simp only [SendMessage, ha, nonceBuffer_bytes, MessageAdapter.SendMessage]
  · simp only [nonceBuffer_bytes, MessageAdapter.SendMessage]

/-- Witness for C9: a sample handle in `Done` with send counter `258` and a
failing transport sends a two-byte payload; the nonce starts with the bytes 2
and 1, the transport's error is returned and the counter is 259. -/
theorem sendMessage_effect_witness :
    ∃ p1,
      SendMessage (sampleLibrary 127) (sampleDone [1, 2] 258 7 true) [7, 8] =
        .ret p1 (some (.external "send failed")) ∧
      p1.adapter.sent =
        [(sampleLibrary 127).Seal [1, 2] [2, 1, 0, 0, 0, 0, 0, 0, 0, 0, 0, 0] [7, 8] []] ∧
      p1.localNonce = 259 ∧ p1.remoteNonce = 7 ∧ p1.aead = some [1, 2] ∧
      p1.kxState = KeyExchange_Done :=
  match sendMessage_effect (sampleLibrary 127) (sampleDone [1, 2] 258 7 true) [1, 2] [7, 8]
    rfl rfl with
  | ⟨p1, h1, h2, _, _, h5, h6, h7, h8, _, _⟩ => ⟨p1, h1, h2, h5, h6, h7, h8⟩

/-- C10. Effect of `UnwrapMessage`: on a handle in state `Done` holding the
AEAD context `a`, with pre-call receive counter `c`, the call returns the
result of the AEAD open under `a` of the input, with empty additional data,
under the 12-byte nonce whose byte `i < 8` is `(c / 256 ^ i) % 256` and whose
last four bytes are zero; the receive counter becomes `(c + 1) % 2 ^ 64`
whatever that result is; the send counter, the AEAD context, the state, the
ephemeral fields and the transport (nothing is sent) are unchanged. -/
theorem unwrapMessage_effect (lib : Library G K B A) (p : EstablishedPeer G K A) (a : A)
    (raw : Bytes) (hDone : p.kxState = KeyExchange_Done) (ha : p.aead = some a) :
    ∃ p1,
      UnwrapMessage lib p raw =
        .ret p1 (lib.Open a
          [Fin.ofNat p.remoteNonce, Fin.ofNat (p.remoteNonce / 256),
            Fin.ofNat (p.remoteNonce / 256 ^ 2), Fin.ofNat (p.remoteNonce / 256 ^ 3),
            Fin.ofNat (p.remoteNonce / 256 ^ 4), Fin.ofNat (p.remoteNonce / 256 ^ 5),
            Fin.ofNat (p.remoteNonce / 256 ^ 6), Fin.ofNat (p.remoteNonce / 256 ^ 7),
            0, 0, 0, 0] raw []) ∧
      p1.remoteNonce = (p.remoteNonce + 1) % 2 ^ 64 ∧
      p1.localNonce = p.localNonce ∧
      p1.aead = some a ∧
      p1.kxState = KeyExchange_Done ∧
      p1.adapter = p.adapter ∧
      p1.dhGroup = p.dhGroup ∧ p1.dhKeypair = p.dhKeypair := by
  refine ⟨{ p with remoteNonce := incr64 p.remoteNonce }, ?_, rfl, rfl, ha, hDone, rfl,
    rfl, rfl⟩
  simp only [UnwrapMessage, ha, nonceBuffer_bytes]

/-- Witness for C10: a sample handle in `Done` with receive counter `258`
unwraps a blob that does not authenticate; the error is returned and the
counter is 259 all the same. -/
theorem unwrapMessage_effect_witness :
    ∃ p1,
      UnwrapMessage (sampleLibrary 127) (sampleDone [1, 2] 7 258 false) [1, 2, 3] =
        .ret p1 (.error (.external "cipher: message authentication failed")) ∧
      p1.remoteNonce = 259 ∧ p1.localNonce = 7 ∧ p1.aead = some [1, 2] ∧
      p1.kxState = KeyExchange_Done ∧
      p1.adapter = (sampleDone [1, 2] 7 258 false).adapter :=
  match unwrapMessage_effect (sampleLibrary 127) (sampleDone [1, 2] 7 258 false) [1, 2]
    [1, 2, 3] rfl rfl with
  | ⟨p1, h1, h2, h3, h4, h5, h6, _, _⟩ => ⟨p1, h1, h2, h3, h4, h5, h6⟩

/-- C11. Initiation by role: when `GetGroup(0)` and key generation succeed
(and `Sign` returns `SignatureSize()` bytes, as the identity capability
promises), establishing with `passive = false` hands exactly one message to
the transport, `Sign(pub)` followed by `pub`; it returns a handle in
`ActivelyWaitForPublicKey` when that send succeeds and the send error, with no
handle, when it fails. Establishing with `passive = true` sends nothing and
returns a handle in `PassivelyWaitForPublicKey`. A returned handle is in
neither `Failed` nor `Done`. -/
theorem establish_by_role (lib : Library G K B A) (rand : Bytes)
    (idAdapter : IdentityAdapter) (adapter : MessageAdapter) (g : G) (k : K)
    (hG : lib.GetGroup 0 = .ok g) (hK : lib.GeneratePrivateKey g rand = .ok k)
    (hSign : (idAdapter.Sign (lib.KeyBytes k)).length = idAdapter.SignatureSize) :
    (EstablishPeerWithMessageAdapter lib rand idAdapter adapter false).1.sent =
      adapter.sent ++ [idAdapter.Sign (lib.KeyBytes k) ++ lib.KeyBytes k] ∧
    (adapter.sendErr adapter.sent (idAdapter.Sign (lib.KeyBytes k) ++ lib.KeyBytes k) = none →
      ∃ p, (EstablishPeerWithMessageAdapter lib rand idAdapter adapter false).2 = .ok p ∧
        p.kxState = KeyExchange_ActivelyWaitForPublicKey ∧
        p.adapter.sent =
          adapter.sent ++ [idAdapter.Sign (lib.KeyBytes k) ++ lib.KeyBytes k]) ∧
    (∀ e, adapter.sendErr adapter.sent
        (idAdapter.Sign (lib.KeyBytes k) ++ lib.KeyBytes k) = some e →
      (EstablishPeerWithMessageAdapter lib rand idAdapter adapter false).2 = .error e) ∧
    (∃ p, EstablishPeerWithMessageAdapter lib rand idAdapter adapter true = (adapter, .ok p) ∧
      p.kxState = KeyExchange_PassivelyWaitForPublicKey) ∧
    ∀ (passive : Bool) (p : EstablishedPeer G K A),
      (EstablishPeerWithMessageAdapter lib rand idAdapter adapter passive).2 = .ok p →
      p.kxState ≠ KeyExchange_Failed ∧ p.kxState ≠ KeyExchange_Done ∧
      p.kxState ≠ KeyExchange_Invalid := by
  have hm := prependSimpleSignature_eq idAdapter (lib.KeyBytes k) hSign
  refine ⟨?_, ?_, ?_, ?_, ?_⟩
  · cases hS : adapter.sendErr adapter.sent
        (idAdapter.Sign (lib.KeyBytes k) ++ lib.KeyBytes k) <;>
      simp [EstablishPeerWithMessageAdapter, hG, hK, MessageAdapter.SendMessage, hS, hm]
  · intro hS
    simp [EstablishPeerWithMessageAdapter, hG, hK, MessageAdapter.SendMessage, hS, hm]
  · intro e hS
    simp [EstablishPeerWithMessageAdapter, hG, hK, MessageAdapter.SendMessage, hS, hm]
  · simp [EstablishPeerWithMessageAdapter, hG, hK]
  · intro passive p hp
    rcases (establish_ok_shape lib rand idAdapter adapter passive p hp).1 with hs | hs <;>
      rw [hs] <;> exact ⟨by decide, by decide, by decide⟩

/-- Witness for C11: the sample initiator with private exponent 10. -/
theorem establish_by_role_witness :
    (EstablishPeerWithMessageAdapter (sampleLibrary 127) [10] (sampleIdentity 1)
        (sampleTransport 2 false) false).1.sent =
      (sampleTransport 2 false).sent ++
        [(sampleIdentity 1).Sign
            ((sampleLibrary 127).KeyBytes { x := 10, y := 1024, width := 16 }) ++
          (sampleLibrary 127).KeyBytes { x := 10, y := 1024, width := 16 }] ∧
    ∃ p, (EstablishPeerWithMessageAdapter (sampleLibrary 127) [10] (sampleIdentity 1)
        (sampleTransport 2 false) false).2 = .ok p ∧
      p.kxState = KeyExchange_ActivelyWaitForPublicKey ∧
      p.adapter.sent =
        (sampleTransport 2 false).sent ++
          [(sampleIdentity 1).Sign
              ((sampleLibrary 127).KeyBytes { x := 10, y := 1024, width := 16 }) ++
            (sampleLibrary 127).KeyBytes { x := 10, y := 1024, width := 16 }] :=
  ⟨(establish_by_role (sampleLibrary 127) [10] (sampleIdentity 1) (sampleTransport 2 false)
      { p := 2 ^ 127 - 1, g := 2, width := 16 } { x := 10, y := 1024, width := 16 }
      rfl rfl rfl).1,
    (establish_by_role (sampleLibrary 127) [10] (sampleIdentity 1) (sampleTransport 2 false)
      { p := 2 ^ 127 - 1, g := 2, width := 16 } { x := 10, y := 1024, width := 16 }
      rfl rfl rfl).2.1 rfl⟩

/-- C12. Computation failures are terminal: in a waiting state holding group
and keypair, for a message that passes signature verification, an error from
the Diffie-Hellman computation, from the block cipher construction or from the
GCM construction is returned as it is, the handle ends in `Failed`, and the
AEAD field is left as it was; and whenever `continueKeyExchange` returns, it
returns nil exactly when the handle ends in `Done`. -/
theorem computation_failures_are_terminal (lib : Library G K B A)
    (p : EstablishedPeer G K A) (idAdapter : IdentityAdapter) (raw : Bytes) (g : G) (kp : K)
    (hW : p.kxState = KeyExchange_ActivelyWaitForPublicKey ∨
      p.kxState = KeyExchange_PassivelyWaitForPublicKey)
    (hLen : idAdapter.SignatureSize ≤ raw.length)
    (hVer : idAdapter.Verify p.adapter.RemoteEndpoint (raw.drop idAdapter.SignatureSize)
      (raw.take idAdapter.SignatureSize) = true)
    (hg : p.dhGroup = some g) (hk : p.dhKeypair = some kp) :
    (∀ e, lib.ComputeKey g (lib.NewPublicKey (raw.drop idAdapter.SignatureSize)) kp =
        .error e →
      ∃ p1, continueKeyExchange lib p idAdapter raw = .ret p1 (some e) ∧
        p1.kxState = KeyExchange_Failed ∧ p1.aead = p.aead) ∧
    (∀ s e, lib.ComputeKey g (lib.NewPublicKey (raw.drop idAdapter.SignatureSize)) kp =
        .ok s →
      lib.NewCipher (lib.KeyBytes s) = .error e →
      ∃ p1, continueKeyExchange lib p idAdapter raw = .ret p1 (some e) ∧
        p1.kxState = KeyExchange_Failed ∧ p1.aead = p.aead) ∧
    (∀ s blk e, lib.ComputeKey g (lib.NewPublicKey (raw.drop idAdapter.SignatureSize)) kp =
        .ok s →
      lib.NewCipher (lib.KeyBytes s) = .ok blk → lib.NewGCM blk = .error e →
      ∃ p1, continueKeyExchange lib p idAdapter raw = .ret p1 (some e) ∧
        p1.kxState = KeyExchange_Failed ∧ p1.aead = p.aead) ∧
    ∀ (q : EstablishedPeer G K A) (idAdapter1 : IdentityAdapter) (raw1 : Bytes)
      (q1 : EstablishedPeer G K A) (r : Option Error),
      continueKeyExchange lib q idAdapter1 raw1 = .ret q1 r →
      (r = none ↔ q1.kxState = KeyExchange_Done) := by
  have hcw := continueKeyExchange_of_waiting lib p idAdapter raw hW
  have hnl := Nat.not_lt.mpr hLen
  refine ⟨?_, ?_, ?_, ?_⟩
  · intro e hDH
    refine ⟨{ p with kxState := KeyExchange_Failed }, ?_, rfl, rfl⟩
    rw [hcw]
    simp [continueWaiting, hnl, hVer, hg, hk, hDH]
  · intro s e hDH hC
    refine ⟨{ p with
        adapter :=
          if p.kxState = KeyExchange_PassivelyWaitForPublicKey then
            (p.adapter.SendMessage (prependSimpleSignature idAdapter (lib.KeyBytes kp))).1
          else p.adapter,
        dhGroup := none, dhKeypair := none, kxState := KeyExchange_Failed }, ?_, rfl, rfl⟩
    rw [hcw]
    by_cases hP : p.kxState = KeyExchange_PassivelyWaitForPublicKey <;>
      simp [continueWaiting, hnl, hVer, hg, hk, hDH, hC, hP]
  · intro s blk e hDH hC hGCM
    refine ⟨{ p with
        adapter :=
          if p.kxState = KeyExchange_PassivelyWaitForPublicKey then
            (p.adapter.SendMessage (prependSimpleSignature idAdapter (lib.KeyBytes kp))).1
          else p.adapter,
        dhGroup := none, dhKeypair := none, kxState := KeyExchange_Failed }, ?_, rfl, rfl⟩
    rw [hcw]
    by_cases hP : p.kxState = KeyExchange_PassivelyWaitForPublicKey <;>
      simp [continueWaiting, hnl, hVer, hg, hk, hDH, hC, hGCM, hP]
  · intro q idAdapter1 raw1 q1 r hret
    exact continueKeyExchange_nil_iff_done lib q idAdapter1 raw1 q1 r hret

/-- Witness for C12: the sample responder receives a correctly signed message
carrying the public value 0, which the Diffie-Hellman computation rejects. -/
theorem computation_failures_are_terminal_witness :
    ∃ p1, continueKeyExchange (sampleLibrary 127) (sampleWaiting 127 12 1 true false)
        (sampleIdentity 2) [1, 1, 0] =
        .ret p1 (some (.external "DH parameter out of bounds")) ∧
      p1.kxState = KeyExchange_Failed ∧
      p1.aead = (sampleWaiting 127 12 1 true false).aead :=
  (computation_failures_are_terminal (sampleLibrary 127) (sampleWaiting 127 12 1 true false)
    (sampleIdentity 2) [1, 1, 0] { p := 2 ^ 127 - 1, g := 2, width := 16 }
    { x := 12, y := 4096, width := 16 } (Or.inr rfl) (by decide) rfl rfl rfl).1
    (.external "DH parameter out of bounds") rfl

/-- C13. Nonce encoding: for a 64-bit counter value `c` the nonce buffer is 12
bytes long, its byte `i` for `i < 8` is `(c / 256 ^ i) % 256`, its bytes 8 to
11 are zero, and two 64-bit counter values with the same nonce buffer are
equal; `SendMessage` seals under this encoding of the send counter and
`UnwrapMessage` opens under the same encoding of the receive counter. -/
theorem nonce_encoding (lib : Library G K B A) (p : EstablishedPeer G K A) (a : A)
    (body raw : Bytes) (c : Nat) (ha : p.aead = some a) (hc : c < 2 ^ 64) :
    (nonceBuffer c).length = 12 ∧
    (∀ i, i < 8 → ((nonceBuffer c)[i]?).map Fin.val = some (c / 256 ^ i % 256)) ∧
    (∀ i, 8 ≤ i → i < 12 → (nonceBuffer c)[i]? = some 0) ∧
    (∀ d, d < 2 ^ 64 → nonceBuffer c = nonceBuffer d → c = d) ∧
    (SendMessage lib p body).state.adapter.sent =
      p.adapter.sent ++ [lib.Seal a (nonceBuffer p.localNonce) body []] ∧
    UnwrapMessage lib p raw =
      .ret { p with remoteNonce := incr64 p.remoteNonce }
        (lib.Open a (nonceBuffer p.remoteNonce) raw []) := by
  refine ⟨nonceBuffer_length c, ?_, ?_, ?_, SendMessage_state_sent lib p a body ha, ?_⟩
  · intro i hi
    rw [nonceBuffer_eq, List.getElem?_append_left (by rw [littleEndian_length]; exact hi),
      littleEndian_getElem? 8 c i hi]
    rfl
  · intro i h8 h12
    rw [nonceBuffer_eq, List.getElem?_append_right (by rw [littleEndian_length]; exact h8),
      littleEndian_length]
    have : i - 8 < 4 := by omega
    rw [List.getElem?_replicate, if_pos this]
  · intro d hd h
    exact nonceBuffer_inj c d hc hd h
  · simp only [UnwrapMessage, ha]

/-- Witness for C13: the counter value `258 = 2 + 1 * 256` on a sample handle. -/
theorem nonce_encoding_witness :
    nonceBuffer 258 = [2, 1, 0, 0, 0, 0, 0, 0, 0, 0, 0, 0] ∧
    (nonceBuffer 258).length = 12 ∧
    (∀ i, i < 8 → ((nonceBuffer 258)[i]?).map Fin.val = some (258 / 256 ^ i % 256)) ∧
    (∀ i, 8 ≤ i → i < 12 → (nonceBuffer 258)[i]? = some 0) ∧
    (∀ d, d < 2 ^ 64 → nonceBuffer 258 = nonceBuffer d → 258 = d) ∧
    (SendMessage (sampleLibrary 127) (sampleDone [1, 2] 258 0 false) [9]).state.adapter.sent =
      (sampleDone [1, 2] 258 0 false).adapter.sent ++
        [(sampleLibrary 127).Seal [1, 2]
          (nonceBuffer (sampleDone [1, 2] 258 0 false).localNonce) [9] []] ∧
    UnwrapMessage (sampleLibrary 127) (sampleDone [1, 2] 258 0 false) [3] =
      .ret { sampleDone [1, 2] 258 0 false with
              remoteNonce := incr64 (sampleDone [1, 2] 258 0 false).remoteNonce }
        ((sampleLibrary 127).Open [1, 2]
          (nonceBuffer (sampleDone [1, 2] 258 0 false).remoteNonce) [3] []) :=
  ⟨by decide,
    nonce_encoding (sampleLibrary 127) (sampleDone [1, 2] 258 0 false) [1, 2] [9] [3] 258 rfl
      (by decide)⟩

/-- C14. No tolerance for reordering or replay: assume the AEAD fails to open
a sealed message under any 12-byte nonce other than the one it was sealed
under. For a sender and a receiver holding the same AEAD context with send and
receive counter at 0, let the sender send `m1` then `m2`. If the receiver is
given the second ciphertext and then the first, both `UnwrapMessage` calls
return an error; if it is given the first ciphertext twice, the second call
returns an error. In general, a ciphertext sealed by `SendMessage` at send
counter `i` fails to unwrap on a receiver whose receive counter is `j ≠ i`
(`i`, `j` being `uint64` values). -/
theorem no_reorder_no_replay (lib : Library G K B A) (pA pB : EstablishedPeer G K A)
    (a : A) (m1 m2 : Bytes)
    (hAa : pA.aead = some a) (hBa : pB.aead = some a)
    (hA0 : pA.localNonce = 0) (hB0 : pB.remoteNonce = 0)
    (hBind : ∀ n n1 m : Bytes, n.length = 12 → n1.length = 12 → n ≠ n1 →
      ∃ e, lib.Open a n1 (lib.Seal a n m []) [] = .error e) :
    ∃ ct1 ct2,
      (sendAll lib pA [m1, m2]).adapter.sent = pA.adapter.sent ++ [ct1, ct2] ∧
      (∃ e1 e2, UnwrapMessage lib pB ct2 =
          .ret { pB with remoteNonce := 1 } (.error e1) ∧
        UnwrapMessage lib { pB with remoteNonce := 1 } ct1 =
          .ret { pB with remoteNonce := 2 } (.error e2)) ∧
      (∃ r e, UnwrapMessage lib pB ct1 = .ret { pB with remoteNonce := 1 } r ∧
        UnwrapMessage lib { pB with remoteNonce := 1 } ct1 =
          .ret { pB with remoteNonce := 2 } (.error e)) ∧
      ∀ (qA qB : EstablishedPeer G K A) (body : Bytes),
        qA.aead = some a → qB.aead = some a →
        qA.localNonce < 2 ^ 64 → qB.remoteNonce < 2 ^ 64 →
        qA.localNonce ≠ qB.remoteNonce →
        ∃ ct e qB1,
          (SendMessage lib qA body).state.adapter.sent = qA.adapter.sent ++ [ct] ∧
          UnwrapMessage lib qB ct = .ret qB1 (.error e) := by
  have h01 : nonceBuffer 0 ≠ nonceBuffer 1 := nonceBuffer_zero_ne_one
  have hi1 : incr64 0 = 1 := by decide
  have hi2 : incr64 1 = 2 := by decide
  obtain ⟨e1, he1⟩ := hBind (nonceBuffer 1) (nonceBuffer 0) m2 (nonceBuffer_length 1)
    (nonceBuffer_length 0) (Ne.symm h01)
  obtain ⟨e2, he2⟩ := hBind (nonceBuffer 0) (nonceBuffer 1) m1 (nonceBuffer_length 0)
    (nonceBuffer_length 1) h01
  refine ⟨lib.Seal a (nonceBuffer 0) m1 [], lib.Seal a (nonceBuffer 1) m2 [], ?_, ?_, ?_, ?_⟩
  · rw [sendAll_sent lib a [m1, m2] pA hAa]
    simp [sealNonces, SendMessage_state_localNonce, hA0, hi1]
  · exact ⟨e1, e2, by simp only [UnwrapMessage, hBa, hB0, hi1, he1],
      by simp only [UnwrapMessage, hBa, hi2, he2]⟩
  · exact ⟨lib.Open a (nonceBuffer 0) (lib.Seal a (nonceBuffer 0) m1 []) [], e2,
      by simp only [UnwrapMessage, hBa, hB0, hi1],
      by simp only [UnwrapMessage, hBa, hi2, he2]⟩
  · intro qA qB body hqA hqB hi hj hij
    obtain ⟨e, he⟩ := hBind (nonceBuffer qA.localNonce) (nonceBuffer qB.remoteNonce) body
      (nonceBuffer_length _) (nonceBuffer_length _)
      (fun h => hij (nonceBuffer_inj _ _ hi hj h))
    exact ⟨_, e, { qB with remoteNonce := incr64 qB.remoteNonce },
      SendMessage_state_sent lib qA a body hqA,
      by simp only [UnwrapMessage, hqB, he]⟩

/-- Witness for C14: two sample handles in `Done` sharing the key `[1, 2]`,
payloads `[5]` and `[]`. -/
theorem no_reorder_no_replay_witness :
    ∃ ct1 ct2,
      (sendAll (sampleLibrary 127) (sampleDone [1, 2] 0 0 false) [[5], []]).adapter.sent =
        (sampleDone [1, 2] 0 0 false).adapter.sent ++ [ct1, ct2] ∧
      (∃ e1 e2, UnwrapMessage (sampleLibrary 127) (sampleDone [1, 2] 0 0 true) ct2 =
          .ret { sampleDone [1, 2] 0 0 true with remoteNonce := 1 } (.error e1) ∧
        UnwrapMessage (sampleLibrary 127)
            { sampleDone [1, 2] 0 0 true with remoteNonce := 1 } ct1 =
          .ret { sampleDone [1, 2] 0 0 true with remoteNonce := 2 } (.error e2)) ∧
      (∃ r e, UnwrapMessage (sampleLibrary 127) (sampleDone [1, 2] 0 0 true) ct1 =
          .ret { sampleDone [1, 2] 0 0 true with remoteNonce := 1 } r ∧
        UnwrapMessage (sampleLibrary 127)
            { sampleDone [1, 2] 0 0 true with remoteNonce := 1 } ct1 =
          .ret { sampleDone [1, 2] 0 0 true with remoteNonce := 2 } (.error e)) ∧
      ∀ (qA qB : EstablishedPeer SampleGroup SampleKey Bytes) (body : Bytes),
        qA.aead = some [1, 2] → qB.aead = some [1, 2] →
        qA.localNonce < 2 ^ 64 → qB.remoteNonce < 2 ^ 64 →
        qA.localNonce ≠ qB.remoteNonce →
        ∃ ct e qB1,
          (SendMessage (sampleLibrary 127) qA body).state.adapter.sent =
            qA.adapter.sent ++ [ct] ∧
          UnwrapMessage (sampleLibrary 127) qB ct = .ret qB1 (.error e) :=
  no_reorder_no_replay (sampleLibrary 127) (sampleDone [1, 2] 0 0 false)
    (sampleDone [1, 2] 0 0 true) [1, 2] [5] [] rfl rfl rfl rfl
    (fun n n1 m hn hn1 hne => sampleLibrary_open_other_nonce 127 [1, 2] n n1 m hn hn1 hne)

/-- C15. Handshake wire format round trip: for an identity adapter whose `Sign`
always returns exactly `SignatureSize()` bytes, `prependSimpleSignature(data)`
has length `SignatureSize() + len(data)`, equals `Sign(data)` followed by
`data`, and splitting it at `SignatureSize()` gives back `Sign(data)` and
`data`; so a receiver in a waiting state, splitting at the same size, decides
on `Verify(endpoint, data, Sign(data))`: if that is false the call returns the
signature error. -/
theorem prependSimpleSignature_roundTrip (idAdapter : IdentityAdapter) (data : Bytes)
    (hSign : ∀ d, (idAdapter.Sign d).length = idAdapter.SignatureSize) :
    (prependSimpleSignature idAdapter data).length =
      idAdapter.SignatureSize + data.length ∧
    prependSimpleSignature idAdapter data = idAdapter.Sign data ++ data ∧
    (prependSimpleSignature idAdapter data).take idAdapter.SignatureSize =
      idAdapter.Sign data ∧
    (prependSimpleSignature idAdapter data).drop idAdapter.SignatureSize = data ∧
    ∀ (lib : Library G K B A) (p : EstablishedPeer G K A) (idReceiver : IdentityAdapter),
      idReceiver.SignatureSize = idAdapter.SignatureSize →
      (p.kxState = KeyExchange_ActivelyWaitForPublicKey ∨
        p.kxState = KeyExchange_PassivelyWaitForPublicKey) →
      idReceiver.Verify p.adapter.RemoteEndpoint data (idAdapter.Sign data) = false →
      continueKeyExchange lib p idReceiver (prependSimpleSignature idAdapter data) =
        .ret p (some .signatureVerificationFailed) := by
  have hm := prependSimpleSignature_eq idAdapter data (hSign data)
  have ht : (idAdapter.Sign data ++ data).take idAdapter.SignatureSize =
      idAdapter.Sign data := List.take_left' (hSign data)
  have hd : (idAdapter.Sign data ++ data).drop idAdapter.SignatureSize = data :=
    List.drop_left' (hSign data)
  refine ⟨?_, hm, ?_, ?_, ?_⟩
  · rw [hm, List.length_append, hSign data]
  · rw [hm, ht]
  · rw [hm, hd]
  · intro lib p idReceiver hSz hW hVer
    rw [continueKeyExchange_of_waiting lib p idReceiver _ hW, hm]
    have hlen : ¬ (idAdapter.Sign data ++ data).length < idReceiver.SignatureSize := by
      rw [List.length_append, hSign data, hSz]; omega
    have hle : idAdapter.SignatureSize ≤ (idAdapter.Sign data).length + data.length := by
      rw [hSign data]; omega
    simp [continueWaiting, hlen, hle, hSz, ht, hd, hVer]

/-- Witness for C15: the sample identity with token 1 signs three bytes. -/
theorem prependSimpleSignature_roundTrip_witness :
    prependSimpleSignature (sampleIdentity 1) [7, 8, 9] = [1, 3, 7, 8, 9] ∧
    (prependSimpleSignature (sampleIdentity 1) [7, 8, 9]).length =
      (sampleIdentity 1).SignatureSize + [7, 8, 9].length ∧
    prependSimpleSignature (sampleIdentity 1) [7, 8, 9] =
      (sampleIdentity 1).Sign [7, 8, 9] ++ [7, 8, 9] ∧
    (prependSimpleSignature (sampleIdentity 1) [7, 8, 9]).take
      (sampleIdentity 1).SignatureSize = (sampleIdentity 1).Sign [7, 8, 9] ∧
    (prependSimpleSignature (sampleIdentity 1) [7, 8, 9]).drop
      (sampleIdentity 1).SignatureSize = [7, 8, 9] :=
  have h := prependSimpleSignature_roundTrip (G := SampleGroup) (K := SampleKey)
    (B := Bytes) (A := Bytes) (sampleIdentity 1) [7, 8, 9] (fun _ => rfl)
  ⟨by decide, h.1, h.2.1, h.2.2.1, h.2.2.2.1⟩

/-- C16. Counters start at zero: a handle returned by
`EstablishPeerWithMessageAdapter` has both counters at 0; a
`continueKeyExchange` call on any handle changes neither counter; hence after
any sequence of `continueKeyExchange` calls on the returned handle both
counters are 0, in particular when the handle has reached `Done`. -/
theorem counters_start_at_zero (lib : Library G K B A) (rand : Bytes)
    (idAdapter : IdentityAdapter) (adapter : MessageAdapter) (passive : Bool)
    (p : EstablishedPeer G K A)
    (h : (EstablishPeerWithMessageAdapter lib rand idAdapter adapter passive).2 = .ok p) :
    p.localNonce = 0 ∧ p.remoteNonce = 0 ∧
    (∀ (q : EstablishedPeer G K A) (idAdapter1 : IdentityAdapter) (raw : Bytes),
      (continueKeyExchange lib q idAdapter1 raw).state.localNonce = q.localNonce ∧
      (continueKeyExchange lib q idAdapter1 raw).state.remoteNonce = q.remoteNonce) ∧
    ∀ calls : List (IdentityAdapter × Bytes),
      (continueAll lib p calls).localNonce = 0 ∧
      (continueAll lib p calls).remoteNonce = 0 := by
  obtain ⟨_, _, _, _, hl, hr⟩ := establish_ok_shape lib rand idAdapter adapter passive p h
  refine ⟨hl, hr, fun q i r => continueKeyExchange_counters lib q i r, ?_⟩
  intro calls
  have hc := continueAll_counters lib calls p
  exact ⟨hc.1.trans hl, hc.2.trans hr⟩

/-- Witness for C16: the sample responder is established, rejects a badly
signed message, then completes the handshake; it is in `Done` with both
counters at 0. -/
theorem counters_start_at_zero_witness :
    (continueAll (sampleLibrary 127) (sampleWaiting 127 12 1 true false)
      [(sampleIdentity 2, [9, 9, 4, 0]), (sampleIdentity 2, sampleHello 127)]).kxState =
      KeyExchange_Done ∧
    (continueAll (sampleLibrary 127) (sampleWaiting 127 12 1 true false)
      [(sampleIdentity 2, [9, 9, 4, 0]), (sampleIdentity 2, sampleHello 127)]).localNonce = 0 ∧
    (continueAll (sampleLibrary 127) (sampleWaiting 127 12 1 true false)
      [(sampleIdentity 2, [9, 9, 4, 0]), (sampleIdentity 2, sampleHello 127)]).remoteNonce = 0 :=
  ⟨rfl, (counters_start_at_zero (sampleLibrary 127) [12] (sampleIdentity 2)
    (sampleTransport 1 false) true (sampleWaiting 127 12 1 true false) rfl).2.2.2
    [(sampleIdentity 2, [9, 9, 4, 0]), (sampleIdentity 2, sampleHello 127)]⟩

/-- C18. Cipher state exists exactly in `Done`: a handle reachable from
`EstablishPeerWithMessageAdapter` by `continueKeyExchange`, `SendMessage` and
`UnwrapMessage` calls holds an AEAD context if and only if its state is
`Done`; its state is never `Invalid`; and an AEAD context it holds is still
the one it holds after any further call. -/
theorem cipher_exactly_in_done (lib : Library G K B A) (p : EstablishedPeer G K A)
    (hR : Reachable lib p) :
    ((∃ a, p.aead = some a) ↔ p.kxState = KeyExchange_Done) ∧
    p.kxState ≠ KeyExchange_Invalid ∧
    ∀ a, p.aead = some a →
      (∀ (idAdapter : IdentityAdapter) (raw : Bytes),
        (continueKeyExchange lib p idAdapter raw).state.aead = some a) ∧
      (∀ body : Bytes, (SendMessage lib p body).state.aead = some a) ∧
      (∀ raw : Bytes, (UnwrapMessage lib p raw).state.aead = some a) := by
  have hI := reachable_cipherInvariant lib p hR
  refine ⟨hI.2, hI.1, ?_⟩
  intro a ha
  have hDone : p.kxState = KeyExchange_Done := hI.2.mp ⟨a, ha⟩
  refine ⟨?_, ?_, ?_⟩
  · intro idAdapter raw
    rcases continueKeyExchange_state_cases_waiting lib p idAdapter raw with h1 | ⟨hW, _⟩
    · rw [h1]; exact ha
    · rcases hW with hs | hs <;> rw [hs] at hDone <;> cases hDone
  · intro body
    rw [(SendMessage_state_fields lib p body).2.2.2]; exact ha
  · intro raw
    rw [(UnwrapMessage_state_fields lib p raw).2.2.2]; exact ha

/-- Witness for C18: the sample responder after the handshake holds the AEAD
context of the 16-byte shared secret and is in `Done`. -/
theorem cipher_exactly_in_done_witness :
    sampleResponderDone.aead = some (bigEndian 16 (2 ^ 120)) ∧
    sampleResponderDone.kxState = KeyExchange_Done ∧
    sampleResponderDone.kxState ≠ KeyExchange_Invalid ∧
    (continueKeyExchange (sampleLibrary 127) sampleResponderDone (sampleIdentity 2)
      (sampleHello 127)).state.aead = some (bigEndian 16 (2 ^ 120)) :=
  ⟨rfl,
    (cipher_exactly_in_done (sampleLibrary 127) sampleResponderDone
      sampleResponderDone_reachable).1.mp ⟨_, rfl⟩,
    (cipher_exactly_in_done (sampleLibrary 127) sampleResponderDone
      sampleResponderDone_reachable).2.1,
    ((cipher_exactly_in_done (sampleLibrary 127) sampleResponderDone
      sampleResponderDone_reachable).2.2 _ rfl).1 (sampleIdentity 2) (sampleHello 127)⟩

/-- C19. Fatal aborts of `continueKeyExchange`: on a handle that holds its
ephemeral group and keypair while in a waiting state (as every handle
reachable from `EstablishPeerWithMessageAdapter` does), the call panics if and
only if the state is `Invalid` or `Done`, or the state is a waiting state and
the raw message is shorter than `SignatureSize()`; in every other case, in
particular in a waiting state with a raw message of at least `SignatureSize()`
bytes, the call returns nil or an error value. -/
theorem continueKeyExchange_panics_iff (lib : Library G K B A)
    (p : EstablishedPeer G K A) (idAdapter : IdentityAdapter) (raw : Bytes)
    (hK : KeysWhileWaiting p) :
    ((∃ q, continueKeyExchange lib p idAdapter raw = .panic q) ↔
      (p.kxState = KeyExchange_Invalid ∨ p.kxState = KeyExchange_Done ∨
        ((p.kxState = KeyExchange_ActivelyWaitForPublicKey ∨
            p.kxState = KeyExchange_PassivelyWaitForPublicKey) ∧
          raw.length < idAdapter.SignatureSize))) ∧
    (¬ (p.kxState = KeyExchange_Invalid ∨ p.kxState = KeyExchange_Done ∨
        ((p.kxState = KeyExchange_ActivelyWaitForPublicKey ∨
            p.kxState = KeyExchange_PassivelyWaitForPublicKey) ∧
          raw.length < idAdapter.SignatureSize)) →
      ∃ q r, continueKeyExchange lib p idAdapter raw = .ret q r) ∧
    ((p.kxState = KeyExchange_ActivelyWaitForPublicKey ∨
        p.kxState = KeyExchange_PassivelyWaitForPublicKey) →
      idAdapter.SignatureSize ≤ raw.length →
      ∃ q r, continueKeyExchange lib p idAdapter raw = .ret q r) := by
  have hret : (p.kxState = KeyExchange_ActivelyWaitForPublicKey ∨
        p.kxState = KeyExchange_PassivelyWaitForPublicKey) →
      idAdapter.SignatureSize ≤ raw.length →
      ∃ q r, continueKeyExchange lib p idAdapter raw = .ret q r := by
    intro hW hLen
    obtain ⟨⟨g, hg⟩, ⟨kp, hk⟩⟩ := hK hW
    have hnl := Nat.not_lt.mpr hLen
    rw [continueKeyExchange_of_waiting lib p idAdapter raw hW]
    unfold continueWaiting
    cases hVer : idAdapter.Verify p.adapter.RemoteEndpoint
        (raw.drop idAdapter.SignatureSize) (raw.take idAdapter.SignatureSize) with
    | false => simp [hnl, hVer]
    | true =>
      cases hDH : lib.ComputeKey g
          (lib.NewPublicKey (raw.drop idAdapter.SignatureSize)) kp with
      | error e => simp [hnl, hVer, hg, hk, hDH]
      | ok s =>
        cases hC : lib.NewCipher (lib.KeyBytes s) with
        | error e => simp [hnl, hVer, hg, hk, hDH, hC]
        | ok blk =>
          cases hGCM : lib.NewGCM blk <;> simp [hnl, hVer, hg, hk, hDH, hC, hGCM]
  have hiff : (∃ q, continueKeyExchange lib p idAdapter raw = .panic q) ↔
      (p.kxState = KeyExchange_Invalid ∨ p.kxState = KeyExchange_Done ∨
        ((p.kxState = KeyExchange_ActivelyWaitForPublicKey ∨
            p.kxState = KeyExchange_PassivelyWaitForPublicKey) ∧
          raw.length < idAdapter.SignatureSize)) := by
    by_cases hW : p.kxState = KeyExchange_ActivelyWaitForPublicKey ∨
        p.kxState = KeyExchange_PassivelyWaitForPublicKey
    · by_cases hLen : raw.length < idAdapter.SignatureSize
      · constructor
        · intro _; exact Or.inr (Or.inr ⟨hW, hLen⟩)
        · intro _
          rw [continueKeyExchange_of_waiting lib p idAdapter raw hW]
          exact ⟨p, by simp [continueWaiting, hLen]⟩
      · obtain ⟨q, r, hqr⟩ := hret hW (Nat.le_of_not_lt hLen)
        constructor
        · rintro ⟨q1, hq1⟩
          rw [hqr] at hq1; cases hq1
        · rintro (hs | hs | ⟨_, hl⟩)
          · rcases hW with hw | hw <;> rw [hw] at hs <;> cases hs
          · rcases hW with hw | hw <;> rw [hw] at hs <;> cases hs
          · exact absurd hl hLen
    · cases hs : p.kxState with
      | KeyExchange_ActivelyWaitForPublicKey => exact absurd (Or.inl hs) hW
      | KeyExchange_PassivelyWaitForPublicKey => exact absurd (Or.inr hs) hW
      | KeyExchange_Invalid => simp [continueKeyExchange, hs]
      | KeyExchange_Done => simp [continueKeyExchange, hs]
      | KeyExchange_Failed => simp [continueKeyExchange, hs]
  refine ⟨hiff, ?_, hret⟩
  intro hn
  cases hc : continueKeyExchange lib p idAdapter raw with
  | panic q => exact absurd (hiff.mp ⟨q, hc⟩) hn
  | ret q r => exact ⟨q, r, rfl⟩

/-- Witness for C19: the sample responder, waiting, is given a one-byte raw
message, shorter than the two-byte signature, and panics. -/
theorem continueKeyExchange_panics_iff_witness :
    ∃ q, continueKeyExchange (sampleLibrary 127) (sampleWaiting 127 12 1 true false)
      (sampleIdentity 2) [5] = .panic q :=
  (continueKeyExchange_panics_iff (sampleLibrary 127) (sampleWaiting 127 12 1 true false)
    (sampleIdentity 2) [5] (fun _ => ⟨⟨_, rfl⟩, ⟨_, rfl⟩⟩)).1.mpr
    (Or.inr (Or.inr ⟨Or.inr rfl, by decide⟩))

/-- C20. Key-size gate on reaching `Done`: assume the block cipher constructor
accepts only keys of 16, 24 or 32 bytes. For a call in a waiting state with a
verified message whose Diffie-Hellman computation yields the secret `s`, the
handle can end in `Done` only if the secret is 16, 24 or 32 bytes long; for
any other length the call returns an error and ends in `Failed`, and a passive
handle has by then handed its signed public key to the transport. -/
theorem key_size_gate (lib : Library G K B A) (p : EstablishedPeer G K A)
    (idAdapter : IdentityAdapter) (raw : Bytes) (g : G) (kp s : K)
    (hAES : ∀ key blk, lib.NewCipher key = .ok blk →
      key.length = 16 ∨ key.length = 24 ∨ key.length = 32)
    (hW : p.kxState = KeyExchange_ActivelyWaitForPublicKey ∨
      p.kxState = KeyExchange_PassivelyWaitForPublicKey)
    (hLen : idAdapter.SignatureSize ≤ raw.length)
    (hVer : idAdapter.Verify p.adapter.RemoteEndpoint (raw.drop idAdapter.SignatureSize)
      (raw.take idAdapter.SignatureSize) = true)
    (hg : p.dhGroup = some g) (hk : p.dhKeypair = some kp)
    (hDH : lib.ComputeKey g (lib.NewPublicKey (raw.drop idAdapter.SignatureSize)) kp = .ok s) :
    ((continueKeyExchange lib p idAdapter raw).state.kxState = KeyExchange_Done →
      (lib.KeyBytes s).length = 16 ∨ (lib.KeyBytes s).length = 24 ∨
        (lib.KeyBytes s).length = 32) ∧
    (¬ ((lib.KeyBytes s).length = 16 ∨ (lib.KeyBytes s).length = 24 ∨
        (lib.KeyBytes s).length = 32) →
      ∃ p1 e, continueKeyExchange lib p idAdapter raw = .ret p1 (some e) ∧
        lib.NewCipher (lib.KeyBytes s) = .error e ∧
        p1.kxState = KeyExchange_Failed ∧
        (p.kxState = KeyExchange_PassivelyWaitForPublicKey →
          p1.adapter.sent =
            p.adapter.sent ++ [prependSimpleSignature idAdapter (lib.KeyBytes kp)]) ∧
        (p.kxState = KeyExchange_ActivelyWaitForPublicKey →
          p1.adapter.sent = p.adapter.sent)) := by
  have hcw := continueKeyExchange_of_waiting lib p idAdapter raw hW
  have hnl := Nat.not_lt.mpr hLen
  have hfail : ∀ e, lib.NewCipher (lib.KeyBytes s) = .error e →
      continueKeyExchange lib p idAdapter raw =
        .ret { p with
                adapter :=
                  if p.kxState = KeyExchange_PassivelyWaitForPublicKey then
                    (p.adapter.SendMessage
                      (prependSimpleSignature idAdapter (lib.KeyBytes kp))).1
                  else p.adapter,
                dhGroup := none, dhKeypair := none, kxState := KeyExchange_Failed }
          (some e) := by
    intro e hC
    rw [hcw]
    by_cases hP : p.kxState = KeyExchange_PassivelyWaitForPublicKey <;>
      simp [continueWaiting, hnl, hVer, hg, hk, hDH, hC, hP]
  constructor
  · intro hDone
    cases hC : lib.NewCipher (lib.KeyBytes s) with
    | error e =>
      rw [hfail e hC] at hDone
      cases hDone
    | ok blk => exact hAES _ blk hC
  · intro hSize
    cases hC : lib.NewCipher (lib.KeyBytes s) with
    | ok blk => exact absurd (hAES _ blk hC) hSize
    | error e =>
      refine ⟨_, e, hfail e hC, rfl, rfl, ?_, ?_⟩
      · intro hP
        simp [hP, MessageAdapter.SendMessage]
      · intro hA
        simp [hA]

/-- Witness for C20: in the sample library of exponent 107 the shared secret
is 14 bytes long; the sample responder sends its signed public key and ends in
`Failed` with the key-size error. -/
theorem key_size_gate_witness :
    ∃ p1 e, continueKeyExchange (sampleLibrary 107) (sampleWaiting 107 12 1 true false)
        (sampleIdentity 2) (sampleHello 107) = .ret p1 (some e) ∧
      (sampleLibrary 107).NewCipher
        ((sampleLibrary 107).KeyBytes { x := 0, y := 2 ^ 13, width := 14 }) = .error e ∧
      p1.kxState = KeyExchange_Failed ∧
      ((sampleWaiting 107 12 1 true false).kxState = KeyExchange_PassivelyWaitForPublicKey →
        p1.adapter.sent =
          (sampleWaiting 107 12 1 true false).adapter.sent ++
            [prependSimpleSignature (sampleIdentity 2)
              ((sampleLibrary 107).KeyBytes { x := 12, y := 4096, width := 14 })]) ∧
      ((sampleWaiting 107 12 1 true false).kxState = KeyExchange_ActivelyWaitForPublicKey →
        p1.adapter.sent = (sampleWaiting 107 12 1 true false).adapter.sent) :=
  (key_size_gate (sampleLibrary 107) (sampleWaiting 107 12 1 true false) (sampleIdentity 2)
    (sampleHello 107) { p := 2 ^ 107 - 1, g := 2, width := 14 }
    { x := 12, y := 4096, width := 14 } { x := 0, y := 2 ^ 13, width := 14 }
    (sampleLibrary_newCipher_sizes 107) (Or.inr rfl) (by decide) rfl rfl rfl rfl).2
    (by decide)

end Theorems

end Noise
